import Mathlib

/-!
# fastshot: capture, compare, persist

A shallow embedding of `src/image-compare.c`, `src/image-compare.h` and the
capture / compare / loop parts of `src/fastshot.c`, followed by the theorems
that settle the properties stated about them.

Conventions of the embedding

* `uint32_t`, `uint64_t` and `size_t` values are natural numbers; every C
  operation that can wrap carries its `% 2^32` or `% 2^64` explicitly.
* A byte is a `Fin 256`.  A non-null `uint8_t *` is the function from byte
  offsets to the bytes found there; the null pointer is `none`.
* A finite `float` is the rational number it denotes.  Every C `float`
  operation is the exact operation followed by `f32_round`, rounding to the
  nearest value with a 24-bit significand, ties to even (IEEE-754 binary32
  arithmetic, each operation rounded once).  The exponent range is not
  modelled: the values computed by the program stay far inside it.
* System calls and bus calls are answered by an environment record.  Of the
  effects of the program, the unmapping of buffers, the calls of
  `save_screenshot_async` and the sleeps are recorded as events; messages
  printed, file descriptors and bus message references are not modelled.
-/

namespace Fastshot

/-! ## Machine arithmetic -/

/-- Number of `uint32_t` values. -/
def U32_MOD : Nat := 2 ^ 32

/-- Number of `uint64_t` (and `size_t`) values. -/
def U64_MOD : Nat := 2 ^ 64

/-- One byte of pixel memory. -/
abbrev Byte := Fin 256

/-- The bytes reachable from a non-null `const uint8_t *`, by offset. -/
abbrev Buffer := Nat → Byte

/-- A finite `float`, as the rational it denotes. -/
abbrev F32 := ℚ

/-- Nearest integer to `t`, ties going to the even neighbour. -/
def round_half_even (t : ℚ) : ℤ :=
  if t - ⌊t⌋ < 1 / 2 then ⌊t⌋
  else if 1 / 2 < t - ⌊t⌋ then ⌊t⌋ + 1
  else if ⌊t⌋ % 2 = 0 then ⌊t⌋ else ⌊t⌋ + 1

/-- Spacing of the binary32 values around `q`: `2 ^ (e - 23)` where
`2 ^ e ≤ |q| < 2 ^ (e + 1)`. -/
def f32_ulp (q : ℚ) : ℚ := 2 ^ (Int.log 2 |q| - 23)

/-- Rounding of a rational to binary32: nearest value with a 24-bit
significand, ties to even. -/
def f32_round (q : ℚ) : F32 := (round_half_even (q / f32_ulp q) : ℚ) * f32_ulp q

/-- Conversion `(float)n` of an unsigned integer. -/
def f32_of_nat (n : Nat) : F32 := f32_round n

/-- The C expression `a * b` on `float`. -/
def f32_mul (a b : F32) : F32 := f32_round (a * b)

/-- The C expression `a / b` on `float` (`b` non-zero). -/
def f32_div (a b : F32) : F32 := f32_round (a / b)

/-- The C expression `a - b` on `float`. -/
def f32_sub (a b : F32) : F32 := f32_round (a - b)

/-! ## image-compare.c -/

/-- Channels per pixel: `#define BGRA_CHANNELS 4`. -/
def BGRA_CHANNELS : Nat := 4

/-- Body of the innermost loop of `calculate_mse_bgra`: one channel `c` of
pixel `x`.  The index `x * BGRA_CHANNELS + c` is computed in `uint32_t`, the
difference in `int`, the accumulator in `uint64_t`. -/
def channel_step (row1 row2 : Buffer) (x : Nat) (sse : Nat) (c : Nat) : Nat :=
  let i := (x * BGRA_CHANNELS + c) % U32_MOD
  let diff : Int := ((row1 i).val : Int) - ((row2 i).val : Int)
  (sse + (diff * diff % (U64_MOD : Int)).toNat) % U64_MOD

/-- The loop `for (c = 0; c < BGRA_CHANNELS; c++)` for pixel `x`. -/
def pixel_step (row1 row2 : Buffer) (sse : Nat) (x : Nat) : Nat :=
  (List.range BGRA_CHANNELS).foldl (channel_step row1 row2 x) sse

/-- Body of the outer loop for row `y`: the row pointers are
`img + y * stride` with the product computed in `uint32_t`, then the loop
`for (x = 0; x < width; x++)`. -/
def row_step (img1 img2 : Buffer) (width stride1 stride2 : Nat) (sse : Nat) (y : Nat) : Nat :=
  let row1 : Buffer := fun i => img1 (y * stride1 % U32_MOD + i)
  let row2 : Buffer := fun i => img2 (y * stride2 % U32_MOD + i)
  (List.range width).foldl (pixel_step row1 row2) sse

/-- The loop `for (y = 0; y < height; y++)`, from `sse = 0`. -/
def sse_loop (img1 img2 : Buffer) (width height stride1 stride2 : Nat) : Nat :=
  (List.range height).foldl (row_step img1 img2 width stride1 stride2) 0

/-- The function `calculate_mse_bgra` of image-compare.c. -/
def calculate_mse_bgra (img1 img2 : Option Buffer)
    (width height stride1 stride2 : Nat) : F32 :=
  match img1, img2 with
  | some a, some b =>
    if stride1 ≠ stride2 then -1
    else if stride1 < width * BGRA_CHANNELS % U32_MOD then -1
    else
      let sse := sse_loop a b width height stride1 stride2
      let pixel_count := width * height * BGRA_CHANNELS % U64_MOD
      if pixel_count = 0 then 0
      else f32_div (f32_of_nat sse) (f32_mul (f32_mul (f32_of_nat pixel_count) 255) 255)
  | _, _ => -1

/-- The function `mse_to_similarity` of image-compare.h: `1.0f - mse`. -/
def mse_to_similarity (mse : F32) : F32 := f32_sub 1 mse

/-! ## fastshot.c: frames and their comparison -/

/-- The struct `screenshot_t`: `data` is an address (0 is `NULL`), the three `uint32_t`
fields and the `size_t` size. -/
structure screenshot_t where
  data : Nat
  width : Nat
  height : Nat
  stride : Nat
  size : Nat
  deriving DecidableEq, Repr

/-- Contents of the address space. -/
abbrev Memory := Nat → Byte

/-- What a `uint8_t *` with address `p` denotes in memory `mem`. -/
def deref (mem : Memory) (p : Nat) : Option Buffer :=
  if p = 0 then none else some (fun i => mem (p + i))

/-- The function `compare_screenshots` of fastshot.c. -/
def compare_screenshots (mem : Memory) (shot1 shot2 : screenshot_t) : F32 :=
  if shot1.width ≠ shot2.width ∨ shot1.height ≠ shot2.height ∨ shot1.stride ≠ shot2.stride then 0
  else
    let mse := calculate_mse_bgra (deref mem shot1.data) (deref mem shot2.data)
      shot1.width shot1.height shot1.stride shot2.stride
    if mse < 0 then 0 else mse_to_similarity mse

/-! ## Reference quantities of the specification -/

/-- Squared difference of two channel bytes, `(p - q)^2`. -/
def sq_diff (p q : Byte) : Nat := (((p.val : Int) - (q.val : Int)) ^ 2).toNat

/-- The sum of squared channel differences as the specification writes it:
over every row `y < height`, pixel `x < width` and channel `c < 4`, of the
bytes at offset `y * stride + x * 4 + c`, with no machine wrap-around. -/
def sse_exact (a b : Buffer) (width height stride : Nat) : Nat :=
  ∑ y in Finset.range height, ∑ x in Finset.range width, ∑ c in Finset.range 4,
    sq_diff (a (y * stride + x * 4 + c)) (b (y * stride + x * 4 + c))

/-- The offset the code reads for row `y`, pixel `x`, channel `c`: both the
row offset and the index inside the row are `uint32_t` values. -/
def read_offset (stride y x c : Nat) : Nat :=
  y * stride % U32_MOD + (x * BGRA_CHANNELS + c) % U32_MOD

/-! ## fastshot.c: capture -/

/-- The value of `EIO` in errno.h. -/
def EIO : Int := 5

/-- The value of `ENOENT` in errno.h. -/
def ENOENT : Int := 2

/-- The value of `EINVAL` in errno.h. -/
def EINVAL : Int := 22

/-- What the process does to the outside world, as far as the properties
below speak of it: releasing a mapping, handing a frame to
`save_screenshot_async`, sleeping. -/
inductive Event where
  | munmap (addr : Nat) (size : Nat)
  | save_async (shot : screenshot_t) (filename : String)
  | sleep (seconds : Int)
  deriving DecidableEq, Repr

/-- One dictionary entry of the reply: its key and the `u` variant that
`sd_bus_message_read(reply, "v", "u", ...)` reads (a value below `2^32`). -/
abbrev MetadataEntry := String × Nat

/-- The locals `w`, `h`, `stride` of `capture_screenshot`. -/
structure Metadata where
  w : Nat
  h : Nat
  stride : Nat
  deriving DecidableEq, Repr

/-- Body of the loop over the reply's entries: the three `strcmp` branches
store the value, any other key is skipped. -/
def parse_entry (md : Metadata) (e : MetadataEntry) : Metadata :=
  if e.1 = "width" then { md with w := e.2 % U32_MOD }
  else if e.1 = "height" then { md with h := e.2 % U32_MOD }
  else if e.1 = "stride" then { md with stride := e.2 % U32_MOD }
  else md

/-- The response parsing of `capture_screenshot`: `w = h = stride = 0`, then
the `while` loop over the entries. -/
def parse_reply (reply : List MetadataEntry) : Metadata :=
  reply.foldl parse_entry { w := 0, h := 0, stride := 0 }

/-- What the system and the compositor answer during one call of
`capture_screenshot`: the result of `memfd_create` and the `errno` it leaves
on failure, the result and reply of the `CaptureInteractive` call, those of
the `CaptureActiveScreen` fallback, and what `mmap` returns for a given
length (`none` is `MAP_FAILED`) with the `errno` it leaves. -/
structure CaptureEnv where
  memfd : Int
  memfd_errno : Int
  interactive : Int
  interactive_reply : List MetadataEntry
  active_screen : Int
  active_screen_reply : List MetadataEntry
  mmap : Nat → Option Nat
  mmap_errno : Int

/-- The two `sd_bus_call_method` calls: the fallback is tried only when the
first call fails.  Returns the last `r` and the reply to parse. -/
def call_capture (env : CaptureEnv) : Int × List MetadataEntry :=
  if env.interactive < 0 then (env.active_screen, env.active_screen_reply)
  else (env.interactive, env.interactive_reply)

/-- The function `capture_screenshot` of fastshot.c: the return value, the `screenshot_t`
behind `shot` afterwards, and the mappings released. -/
def capture_screenshot (env : CaptureEnv) (shot : screenshot_t) :
    Int × screenshot_t × List Event :=
  if env.memfd < 0 then (-env.memfd_errno, shot, [])
  else if (call_capture env).1 < 0 then ((call_capture env).1, shot, [])
  else
    let md := parse_reply (call_capture env).2
    if md.w = 0 ∨ md.h = 0 ∨ md.stride = 0 then (-EINVAL, shot, [])
    else
      let size := md.stride * md.h % U64_MOD
      match env.mmap size with
      | none => (-env.mmap_errno, shot, [])
      | some data =>
        (0, { data := data, width := md.w, height := md.h, stride := md.stride, size := size },
          if shot.data ≠ 0 ∧ 0 < shot.size then [Event.munmap shot.data shot.size] else [])

/-! ## fastshot.c: the capture loop -/

/-- The struct `config_t`; the threshold is the `float` read from the command line. -/
structure config_t where
  directory : String
  interval : Int
  threshold : F32
  verbose : Bool
  loop_mode : Bool
  output_file : Option String

/-- The fields of `struct tm` that `run_loop_mode` prints. -/
structure tm where
  tm_year : Int
  tm_mon : Int
  tm_mday : Int
  tm_hour : Int
  tm_min : Int
  tm_sec : Int

/-- The `printf` conversion `%0<width>d`. -/
def fmt_d (width : Nat) (v : Int) : String :=
  let digits := toString v.natAbs
  if v < 0 then "-" ++ "".pushn '0' (width - 1 - digits.length) ++ digits
  else "".pushn '0' (width - digits.length) ++ digits

/-- The file name `run_loop_mode` builds with
`"%s/%04d.%02d.%02d-%02d.%02d.%02d.png"` (names shorter than the 4096-byte
buffer). -/
def loop_filename (directory : String) (t : tm) : String :=
  directory ++ "/" ++ fmt_d 4 (t.tm_year + 1900) ++ "." ++ fmt_d 2 (t.tm_mon + 1) ++ "."
    ++ fmt_d 2 t.tm_mday ++ "-" ++ fmt_d 2 t.tm_hour ++ "." ++ fmt_d 2 t.tm_min ++ "."
    ++ fmt_d 2 t.tm_sec ++ ".png"

/-- The locals of `run_loop_mode` that live across iterations. -/
structure LoopState where
  current : screenshot_t
  last_saved : screenshot_t
  first_shot : Bool
  deriving DecidableEq, Repr

/-- The cleared `screenshot_t` (`data = NULL`, everything else 0). -/
def empty_shot : screenshot_t := { data := 0, width := 0, height := 0, stride := 0, size := 0 }

/-- What one iteration of the capture loop meets: the answers to
`capture_screenshot`, the contents of memory once the frame is mapped, and
the local time read when a file name is built. -/
structure IterEnv where
  capture : CaptureEnv
  mem : Memory
  now : tm

/-- The value of `should_save` when the `if (should_save)` test is reached:
it starts as `first_shot` and is set when a comparison against `last_saved`
is made and gives a similarity below the threshold. -/
def should_save (config : config_t) (mem : Memory) (first_shot : Bool)
    (current last_saved : screenshot_t) : Bool :=
  if first_shot = false ∧ last_saved.data ≠ 0
      ∧ compare_screenshots mem current last_saved < config.threshold then true
  else first_shot

/-- One run of the body of `while (running)` in `run_loop_mode`: the state
afterwards and the events in order. -/
def loop_iteration (config : config_t) (env : IterEnv) (st : LoopState) :
    LoopState × List Event :=
  match capture_screenshot env.capture st.current with
  | (r, current, released) =>
    if r < 0 then
      ({ st with current := current },
        released ++ [Event.sleep (if r = - EIO ∨ r = - ENOENT then 30 else config.interval)])
    else if should_save config env.mem st.first_shot current st.last_saved = true then
      ({ current := empty_shot, last_saved := current, first_shot := false },
        released ++ [Event.save_async current (loop_filename config.directory env.now)]
          ++ (if st.last_saved.data ≠ 0
              then [Event.munmap st.last_saved.data st.last_saved.size] else [])
          ++ [Event.sleep config.interval])
    else
      ({ st with current := if current.data ≠ 0 then empty_shot else current },
        released ++ (if current.data ≠ 0 then [Event.munmap current.data current.size] else [])
          ++ [Event.sleep config.interval])

/-- The persist jobs submitted in a run: the calls of `save_screenshot_async`,
in order. -/
def persist_jobs (events : List Event) : List (screenshot_t × String) :=
  events.filterMap fun e =>
    match e with
    | Event.save_async shot filename => some (shot, filename)
    | _ => none

/-- The value of field `key` in a reply: that of the last entry carrying the
key, if there is one. -/
def field_value (reply : List MetadataEntry) (key : String) : Option Nat :=
  (reply.reverse.find? (fun e => e.1 = key)).map (fun e => e.2)

/-- Field `key` is missing from the reply or zero. -/
def missing_or_zero (reply : List MetadataEntry) (key : String) : Prop :=
  field_value reply key = none ∨ field_value reply key = some 0

/-- An entry whose key is one of the three the parser reads. -/
def is_required_key (e : MetadataEntry) : Bool :=
  e.1 = "width" || e.1 = "height" || e.1 = "stride"

/-! ## Sample runs

Concrete configurations, environments and states at which the theorems
below are instantiated. -/

/-- The default loop configuration: 45 seconds, threshold 0.99. -/
def sample_config : config_t :=
  { directory := "/tmp/rec", interval := 45, threshold := 99 / 100, verbose := false,
    loop_mode := true, output_file := none }

/-- Noon of 31 October 2026. -/
def sample_time : tm :=
  { tm_year := 126, tm_mon := 9, tm_mday := 31, tm_hour := 12, tm_min := 0, tm_sec := 0 }

/-- Both bus calls fail with `-EIO`: no output to capture. -/
def no_output_env : CaptureEnv :=
  { memfd := 3, memfd_errno := 0, interactive := -5, interactive_reply := [],
    active_screen := -5, active_screen_reply := [], mmap := fun _ => none, mmap_errno := 12 }

/-- The first bus call succeeds with the given reply and `mmap` returns
address 8192. -/
def reply_env (reply : List MetadataEntry) : CaptureEnv :=
  { memfd := 3, memfd_errno := 0, interactive := 1, interactive_reply := reply,
    active_screen := 0, active_screen_reply := [], mmap := fun _ => some 8192, mmap_errno := 12 }

/-- A 1 x 1 frame mapped at address 4096. -/
def saved_frame : screenshot_t := { data := 4096, width := 1, height := 1, stride := 4, size := 4 }

/-- The state after a first save of `saved_frame`. -/
def later_state : LoopState := { current := empty_shot, last_saved := saved_frame, first_shot := false }

/-- The state in which `run_loop_mode` enters its capture loop. -/
def initial_state : LoopState := { current := empty_shot, last_saved := empty_shot, first_shot := true }

/-- Reply describing a 1 x 1 frame with stride 4. -/
def sample_reply : List MetadataEntry := [("width", 1), ("height", 1), ("stride", 4)]

/-- The frame captured from `sample_reply`. -/
def captured_frame : screenshot_t := { data := 8192, width := 1, height := 1, stride := 4, size := 4 }

/-- An iteration that captures `captured_frame` in a memory of zero bytes. -/
def sample_env : IterEnv :=
  { capture := reply_env sample_reply, mem := fun _ => 0, now := sample_time }

/-- A reply with a zero width and two entries the parser does not know. -/
def zero_width_reply : List MetadataEntry :=
  [("scale", 2), ("width", 0), ("height", 1), ("format", 7), ("stride", 4)]

/-! ## fastshot.c: waiting for the compositor, sizing the copy -/

/-- What the wait loop does, in order: a call of `check_compositor_ready`, a
`sleep`. -/
inductive WaitEvent where
  | check_ready
  | sleep (seconds : Int)
  deriving DecidableEq, Repr

/-- The loop `while (running && !check_compositor_ready(bus))` at the start of
`run_loop_mode`, entered with `compositor_wait_count = count`.  The oracle
`running k` is the flag read by the loop test reached with the counter `k`,
`ready k` the answer of the readiness check made there (made only when
`running` is set).  The result is the final counter and the events; `none`
when `fuel` runs of the loop test do not reach the end. -/
def await_compositor (running ready : Nat → Bool) : Nat → Nat → Option (Nat × List WaitEvent)
  | 0, _ => none
  | fuel + 1, count =>
    if running count = false then some (count, [])
    else if ready count = true then some (count, [WaitEvent.check_ready])
    else if count + 1 > 12 then
      some (count + 1, [WaitEvent.check_ready, WaitEvent.sleep 5])
    else
      (await_compositor running ready fuel (count + 1)).map
        (fun r => (r.1, [WaitEvent.check_ready, WaitEvent.sleep 5] ++ r.2))

/-- Number of readiness checks in a run of the wait loop. -/
def polls (events : List WaitEvent) : Nat :=
  events.count WaitEvent.check_ready

/-- Seconds slept in a run of the wait loop. -/
def seconds_slept : List WaitEvent → Int
  | [] => 0
  | WaitEvent.sleep n :: rest => n + seconds_slept rest
  | WaitEvent.check_ready :: rest => seconds_slept rest

/-- The allocation size of `save_screenshot_async`:
`(shot->size + 31) & ~31` in `size_t`; the `int` mask `~31` converts to
`2^64 - 32`. -/
def aligned_size (size : Nat) : Nat :=
  ((size + 31) % U64_MOD) &&& (U64_MOD - 32)

/-- Reply describing a 2 x 1 frame whose stride, 4, is shorter than a row. -/
def short_stride_reply : List MetadataEntry := [("width", 2), ("height", 1), ("stride", 4)]

/-! ## Rounding lemmas -/

theorem f32_ulp_pos (q : ℚ) : 0 < f32_ulp q := by
  unfold f32_ulp; positivity

theorem round_half_even_sub_le (t : ℚ) : |(round_half_even t : ℚ) - t| ≤ 1 / 2 := by
  have h1 : (⌊t⌋ : ℚ) ≤ t := Int.floor_le t
  have h2 : t < ⌊t⌋ + 1 := Int.lt_floor_add_one t
  unfold round_half_even
  rw [abs_le]
  split_ifs with ha hb hc
  · constructor <;> linarith
  · push_cast; constructor <;> linarith
  · constructor <;> linarith
  · push_cast; constructor <;> linarith

theorem round_half_even_of_lt (t : ℚ) (m : ℤ) (h : |t - m| < 1 / 2) :
    round_half_even t = m := by
  rw [abs_lt] at h
  have hle : |(round_half_even t : ℚ) - t| ≤ 1 / 2 := round_half_even_sub_le t
  rw [abs_le] at hle
  have h3 : ((round_half_even t - m : ℤ) : ℚ) < 1 := by push_cast; linarith
  have h4 : (-1 : ℚ) < ((round_half_even t - m : ℤ) : ℚ) := by push_cast; linarith
  have h5 : round_half_even t - m < 1 := by exact_mod_cast h3
  have h6 : -1 < round_half_even t - m := by exact_mod_cast h4
  omega

theorem round_half_even_tie (m : ℤ) (t : ℚ) (h : t = m + 1 / 2) :
    round_half_even t = if m % 2 = 0 then m else m + 1 := by
  have hf : ⌊t⌋ = m := by
    rw [Int.floor_eq_iff]; constructor <;> linarith
  unfold round_half_even
  rw [hf]
  have : t - (m : ℚ) = 1 / 2 := by linarith
  rw [this]
  simp

theorem f32_ulp_eq (q : ℚ) (e : ℤ) (h1 : (2 : ℚ) ^ e ≤ |q|) (h2 : |q| < 2 ^ (e + 1)) :
    f32_ulp q = 2 ^ (e - 23) := by
  have hpos : 0 < |q| := lt_of_lt_of_le (by positivity) h1
  have hlog : Int.log 2 |q| = e := by
    apply le_antisymm
    · have := (Int.lt_zpow_iff_log_lt (R := ℚ) (b := 2) (by norm_num) (x := e + 1) hpos).1
        (by exact_mod_cast h2)
      omega
    · exact (Int.zpow_le_iff_le_log (R := ℚ) (b := 2) (by norm_num) hpos).1
        (by exact_mod_cast h1)
  unfold f32_ulp; rw [hlog]

/-- Evaluation of one rounding from its binade and its rounded significand. -/
theorem f32_round_eval (q : ℚ) (e m : ℤ) (h1 : (2 : ℚ) ^ e ≤ |q|) (h2 : |q| < 2 ^ (e + 1))
    (hm : round_half_even (q / 2 ^ (e - 23)) = m) : f32_round q = m * 2 ^ (e - 23) := by
  unfold f32_round; rw [f32_ulp_eq q e h1 h2, hm]

theorem f32_round_zero : f32_round 0 = 0 := by
  unfold f32_round; simp [round_half_even]

theorem f32_round_one : f32_round 1 = 1 := by
  rw [f32_round_eval 1 0 (2 ^ 23) (by norm_num) (by norm_num)
    (by apply round_half_even_of_lt; norm_num)]
  norm_num

theorem f32_round_sub_le (q : ℚ) : |f32_round q - q| ≤ f32_ulp q / 2 := by
  have hu := f32_ulp_pos q
  have h := round_half_even_sub_le (q / f32_ulp q)
  unfold f32_round
  have : (round_half_even (q / f32_ulp q) : ℚ) * f32_ulp q - q
      = ((round_half_even (q / f32_ulp q) : ℚ) - q / f32_ulp q) * f32_ulp q := by
    field_simp
  rw [this, abs_mul, abs_of_pos hu]
  calc _ ≤ 1 / 2 * f32_ulp q := by gcongr
    _ = f32_ulp q / 2 := by ring

theorem f32_ulp_le (q : ℚ) (hq : q ≠ 0) : f32_ulp q ≤ 2 ^ (-23 : ℤ) * |q| := by
  have hpos : 0 < |q| := abs_pos.2 hq
  have h := Int.zpow_log_le_self (R := ℚ) (b := 2) (by norm_num) hpos
  unfold f32_ulp
  rw [sub_eq_add_neg, zpow_add₀ (by norm_num : (2 : ℚ) ≠ 0), mul_comm]
  have h' : (2 : ℚ) ^ Int.log 2 |q| ≤ |q| := by exact_mod_cast h
  gcongr

/-- One rounding has relative error at most `2 ^ -24`. -/
theorem f32_round_rel (q : ℚ) : |f32_round q - q| ≤ 2 ^ (-24 : ℤ) * |q| := by
  by_cases hq : q = 0
  · subst hq; simp [f32_round_zero]
  · calc |f32_round q - q| ≤ f32_ulp q / 2 := f32_round_sub_le q
      _ ≤ 2 ^ (-23 : ℤ) * |q| / 2 := by gcongr; exact f32_ulp_le q hq
      _ = 2 ^ (-24 : ℤ) * |q| := by norm_num; ring

/-- Rounding a non-negative value: lower and upper bound. -/
theorem f32_round_bounds (q : ℚ) (hq : 0 ≤ q) :
    (1 - 1 / 16777216) * q ≤ f32_round q ∧ f32_round q ≤ (1 + 1 / 16777216) * q := by
  have h := f32_round_rel q
  rw [abs_of_nonneg hq, abs_le] at h
  have e : (2 : ℚ) ^ (-24 : ℤ) = 1 / 16777216 := by norm_num
  rw [e] at h
  constructor <;> linarith [h.1, h.2]

theorem f32_round_nonneg (q : ℚ) (hq : 0 ≤ q) : 0 ≤ f32_round q := by
  have h := (f32_round_bounds q hq).1
  have : 0 ≤ (1 - 1 / 16777216) * q := mul_nonneg (by norm_num) hq
  linarith

theorem f32_round_pos (q : ℚ) (hq : 0 < q) : 0 < f32_round q := by
  have h := (f32_round_bounds q hq.le).1
  have : 0 < (1 - 1 / 16777216) * q := mul_pos (by norm_num) hq
  linarith

/-! ## The accumulation loops -/

/-- A loop whose body adds `f i` modulo `M` computes the sum modulo `M`. -/
theorem foldl_range_add_mod (M : Nat) (step : Nat → Nat → Nat) (f : Nat → Nat)
    (hstep : ∀ acc i, step acc i % M = (acc + f i) % M) (n init : Nat) :
    (List.range n).foldl step init % M = (init + ∑ i in Finset.range n, f i) % M := by
  induction n with
  | zero => simp
  | succ n ih =>
    rw [List.range_succ, List.foldl_append, Finset.sum_range_succ]
    simp only [List.foldl_cons, List.foldl_nil]
    rw [hstep, Nat.add_mod, ih, ← Nat.add_mod, Nat.add_assoc]

/-- A loop keeps what each run of its body keeps. -/
theorem foldl_range_invariant (P : Nat → Prop) (step : Nat → Nat → Nat)
    (hstep : ∀ acc i, P acc → P (step acc i)) (n init : Nat) (h0 : P init) :
    P ((List.range n).foldl step init) := by
  induction n with
  | zero => simpa using h0
  | succ n ih =>
    rw [List.range_succ, List.foldl_append]
    simp only [List.foldl_cons, List.foldl_nil]
    exact hstep _ _ ih

theorem sq_diff_le (p q : Byte) : sq_diff p q ≤ 65025 := by
  unfold sq_diff
  have hp := p.isLt
  have hq := q.isLt
  have h1 : ((p.val : Int) - (q.val : Int)) ^ 2 ≤ 65025 := by nlinarith
  omega

theorem sq_diff_comm (p q : Byte) : sq_diff p q = sq_diff q p := by
  unfold sq_diff
  congr 1
  ring

theorem sq_diff_self (p : Byte) : sq_diff p p = 0 := by
  simp [sq_diff]

/-- The `uint64_t` cast of `diff * diff` is the squared difference. -/
theorem cast_sq_eq (p q : Byte) :
    ((((p.val : Int) - (q.val : Int)) * ((p.val : Int) - (q.val : Int))) % (U64_MOD : Int)).toNat
      = sq_diff p q := by
  have h := sq_diff_le p q
  unfold sq_diff at *
  have hnn : 0 ≤ ((p.val : Int) - (q.val : Int)) ^ 2 := by positivity
  have e : ((p.val : Int) - (q.val : Int)) * ((p.val : Int) - (q.val : Int))
      = ((p.val : Int) - (q.val : Int)) ^ 2 := by ring
  rw [e, Int.emod_eq_of_lt hnn]
  have : (U64_MOD : Int) = 18446744073709551616 := by norm_num [U64_MOD]
  rw [this]
  omega

theorem channel_step_mod (row1 row2 : Buffer) (x acc c : Nat) :
    channel_step row1 row2 x acc c % U64_MOD
      = (acc + sq_diff (row1 ((x * BGRA_CHANNELS + c) % U32_MOD))
          (row2 ((x * BGRA_CHANNELS + c) % U32_MOD))) % U64_MOD := by
  simp only [channel_step, cast_sq_eq, Nat.mod_mod]

theorem pixel_step_mod (row1 row2 : Buffer) (acc x : Nat) :
    pixel_step row1 row2 acc x % U64_MOD
      = (acc + ∑ c in Finset.range 4, sq_diff (row1 ((x * BGRA_CHANNELS + c) % U32_MOD))
          (row2 ((x * BGRA_CHANNELS + c) % U32_MOD))) % U64_MOD := by
  unfold pixel_step
  exact foldl_range_add_mod U64_MOD _ _ (channel_step_mod row1 row2 x) 4 acc

theorem row_step_mod (a b : Buffer) (width s1 s2 acc y : Nat) :
    row_step a b width s1 s2 acc y % U64_MOD
      = (acc + ∑ x in Finset.range width, ∑ c in Finset.range 4,
          sq_diff (a (read_offset s1 y x c)) (b (read_offset s2 y x c))) % U64_MOD := by
  unfold row_step read_offset
  exact foldl_range_add_mod U64_MOD _ _ (fun acc x => pixel_step_mod _ _ acc x) width acc

theorem channel_step_lt (row1 row2 : Buffer) (x acc c : Nat) :
    channel_step row1 row2 x acc c < U64_MOD := by
  unfold channel_step
  exact Nat.mod_lt _ (by norm_num [U64_MOD])

theorem pixel_step_lt (row1 row2 : Buffer) (acc x : Nat) (h : acc < U64_MOD) :
    pixel_step row1 row2 acc x < U64_MOD := by
  unfold pixel_step
  exact foldl_range_invariant (fun v => v < U64_MOD) _
    (fun acc c _ => channel_step_lt row1 row2 x acc c) _ _ h

theorem row_step_lt (a b : Buffer) (width s1 s2 acc y : Nat) (h : acc < U64_MOD) :
    row_step a b width s1 s2 acc y < U64_MOD := by
  unfold row_step
  exact foldl_range_invariant (fun v => v < U64_MOD) _
    (fun acc x hacc => pixel_step_lt _ _ acc x hacc) _ _ h

theorem sse_loop_lt (a b : Buffer) (width height s1 s2 : Nat) :
    sse_loop a b width height s1 s2 < U64_MOD := by
  unfold sse_loop
  exact foldl_range_invariant (fun v => v < U64_MOD) _
    (fun acc y hacc => row_step_lt a b width s1 s2 acc y hacc) _ _ (by norm_num [U64_MOD])

/-- What the three nested loops compute: the sum of the squared differences of
the bytes at the offsets the code reads, modulo `2^64`. -/
theorem sse_loop_eq (a b : Buffer) (width height s1 s2 : Nat) :
    sse_loop a b width height s1 s2
      = (∑ y in Finset.range height, ∑ x in Finset.range width, ∑ c in Finset.range 4,
          sq_diff (a (read_offset s1 y x c)) (b (read_offset s2 y x c))) % U64_MOD := by
  have h := foldl_range_add_mod U64_MOD (row_step a b width s1 s2) _
    (fun acc y => row_step_mod a b width s1 s2 acc y) height 0
  rw [Nat.zero_add] at h
  rw [← h]
  exact (Nat.mod_eq_of_lt (sse_loop_lt a b width height s1 s2)).symm

/-! ## Frames whose rows all start below 4 GiB -/

theorem read_offset_eq (s w h y x c : Nat) (hs : s < 2 ^ 32) (hw : w * 4 ≤ s)
    (hrow : (h - 1) * s < 2 ^ 32) (hy : y < h) (hx : x < w) (hc : c < 4) :
    read_offset s y x c = y * s + x * 4 + c := by
  have hys : y * s ≤ (h - 1) * s := Nat.mul_le_mul_right s (by omega)
  unfold read_offset U32_MOD BGRA_CHANNELS
  rw [Nat.mod_eq_of_lt (by omega), Nat.mod_eq_of_lt (by omega)]
  omega

theorem sse_exact_le (a b : Buffer) (w h s : Nat) :
    sse_exact a b w h s ≤ 65025 * (w * h * 4) := by
  unfold sse_exact
  have h3 : ∀ y x, ∑ c in Finset.range 4,
      sq_diff (a (y * s + x * 4 + c)) (b (y * s + x * 4 + c)) ≤ 4 * 65025 := by
    intro y x
    have := Finset.sum_le_card_nsmul (Finset.range 4)
      (fun c => sq_diff (a (y * s + x * 4 + c)) (b (y * s + x * 4 + c))) 65025
      (fun c _ => sq_diff_le _ _)
    simpa using this
  have h2 : ∀ y, ∑ x in Finset.range w, ∑ c in Finset.range 4,
      sq_diff (a (y * s + x * 4 + c)) (b (y * s + x * 4 + c)) ≤ w * (4 * 65025) := by
    intro y
    have := Finset.sum_le_card_nsmul (Finset.range w) _ (4 * 65025) (fun x _ => h3 y x)
    simpa using this
  have h1 := Finset.sum_le_card_nsmul (Finset.range h) _ (w * (4 * 65025)) (fun y _ => h2 y)
  simp only [Finset.card_range, smul_eq_mul] at h1
  calc _ ≤ h * (w * (4 * 65025)) := h1
    _ = 65025 * (w * h * 4) := by ring

/-- Without wrap-around of the row offsets the loops compute the sum the
specification writes. -/
theorem sse_loop_exact (a b : Buffer) (w h s : Nat) (hs : s < 2 ^ 32) (hw : w * 4 ≤ s)
    (hrow : (h - 1) * s < 2 ^ 32) : sse_loop a b w h s s = sse_exact a b w h s := by
  rw [sse_loop_eq]
  have hsum : (∑ y in Finset.range h, ∑ x in Finset.range w, ∑ c in Finset.range 4,
      sq_diff (a (read_offset s y x c)) (b (read_offset s y x c))) = sse_exact a b w h s := by
    unfold sse_exact
    refine Finset.sum_congr rfl (fun y hy => Finset.sum_congr rfl (fun x hx =>
      Finset.sum_congr rfl (fun c hc => ?_)))
    rw [read_offset_eq s w h y x c hs hw hrow (Finset.mem_range.1 hy) (Finset.mem_range.1 hx)
      (Finset.mem_range.1 hc)]
  rw [hsum]
  apply Nat.mod_eq_of_lt
  have hle := sse_exact_le a b w h s
  have hwh : w * h * 4 ≤ (h - 1) * s + s := by
    have e : h * s ≤ (h - 1) * s + s := by
      rcases h with _ | k
      · simp
      · simp [Nat.succ_mul]
    calc w * h * 4 = h * (w * 4) := by ring
      _ ≤ h * s := Nat.mul_le_mul_left h hw
      _ ≤ (h - 1) * s + s := e
  unfold U64_MOD
  omega

theorem pixel_count_small (w h s : Nat) (hs : s < 2 ^ 32) (hw : w * 4 ≤ s)
    (hrow : (h - 1) * s < 2 ^ 32) : w * h * 4 < 2 ^ 33 := by
  have e : h * s ≤ (h - 1) * s + s := by
    rcases h with _ | k
    · simp
    · simp [Nat.succ_mul]
  have : w * h * 4 ≤ h * s := by
    calc w * h * 4 = h * (w * 4) := by ring
      _ ≤ h * s := Nat.mul_le_mul_left h hw
  omega

/-! ## Accuracy of the normalisation -/

/-- The denominator `pixel_count * 255.0f * 255.0f` lies within three
roundings of `65025 * n`. -/
theorem denominator_bounds (n : Nat) :
    (1 - 1 / 16777216) ^ 3 * (65025 * (n : ℚ)) ≤ f32_mul (f32_mul (f32_of_nat n) 255) 255
    ∧ f32_mul (f32_mul (f32_of_nat n) 255) 255 ≤ (1 + 1 / 16777216) ^ 3 * (65025 * (n : ℚ)) := by
  have hn0 : (0 : ℚ) ≤ n := Nat.cast_nonneg n
  obtain ⟨p1, p2⟩ := f32_round_bounds (n : ℚ) hn0
  have hP : 0 ≤ f32_round (n : ℚ) := f32_round_nonneg _ hn0
  obtain ⟨q1, q2⟩ := f32_round_bounds (f32_round (n : ℚ) * 255) (by positivity)
  have hQ : 0 ≤ f32_round (f32_round (n : ℚ) * 255) := f32_round_nonneg _ (by positivity)
  obtain ⟨r1, r2⟩ := f32_round_bounds (f32_round (f32_round (n : ℚ) * 255) * 255) (by positivity)
  unfold f32_mul f32_of_nat
  constructor
  · calc (1 - 1 / 16777216) ^ 3 * (65025 * (n : ℚ))
        = (1 - 1 / 16777216) * ((1 - 1 / 16777216) * ((1 - 1 / 16777216) * n * 255) * 255) := by
          ring
      _ ≤ (1 - 1 / 16777216) * ((1 - 1 / 16777216) * (f32_round n * 255) * 255) := by gcongr
      _ ≤ (1 - 1 / 16777216) * (f32_round (f32_round n * 255) * 255) := by gcongr
      _ ≤ f32_round (f32_round (f32_round n * 255) * 255) := r1
  · calc f32_round (f32_round (f32_round (n : ℚ) * 255) * 255)
        ≤ (1 + 1 / 16777216) * (f32_round (f32_round n * 255) * 255) := r2
      _ ≤ (1 + 1 / 16777216) * ((1 + 1 / 16777216) * (f32_round n * 255) * 255) := by gcongr
      _ ≤ (1 + 1 / 16777216) * ((1 + 1 / 16777216) * ((1 + 1 / 16777216) * n * 255) * 255) := by
          gcongr
      _ = (1 + 1 / 16777216) ^ 3 * (65025 * (n : ℚ)) := by ring

/-- The value `(float)sse / (n * 255.0f * 255.0f)` is non-negative and lies
within `10^-6` of the exact quotient `sse / (n * 255^2)`; so does the
similarity `1.0f - mse` with respect to `1 - sse / (n * 255^2)`. -/
theorem mse_value_error (sse n : Nat) (hn : 1 ≤ n) (hsse : sse ≤ 65025 * n) :
    0 ≤ f32_div (f32_of_nat sse) (f32_mul (f32_mul (f32_of_nat n) 255) 255)
    ∧ |f32_div (f32_of_nat sse) (f32_mul (f32_mul (f32_of_nat n) 255) 255)
        - (sse : ℚ) / ((n : ℚ) * 255 ^ 2)| ≤ 1 / 10 ^ 6
    ∧ |mse_to_similarity (f32_div (f32_of_nat sse) (f32_mul (f32_mul (f32_of_nat n) 255) 255))
        - (1 - (sse : ℚ) / ((n : ℚ) * 255 ^ 2))| ≤ 1 / 10 ^ 6 := by
  obtain ⟨d1, d2⟩ := denominator_bounds n
  set D := f32_mul (f32_mul (f32_of_nat n) 255) 255 with hD
  have hnq : (1 : ℚ) ≤ n := by exact_mod_cast hn
  have hd : (0 : ℚ) < 65025 * (n : ℚ) := by positivity
  have hDlo : (0 : ℚ) < (1 - 1 / 16777216) ^ 3 * (65025 * (n : ℚ)) := by positivity
  have hDpos : 0 < D := lt_of_lt_of_le hDlo d1
  have hs0 : (0 : ℚ) ≤ sse := Nat.cast_nonneg sse
  obtain ⟨s1, s2⟩ := f32_round_bounds (sse : ℚ) hs0
  have hS : 0 ≤ f32_round (sse : ℚ) := f32_round_nonneg _ hs0
  have hR : 0 ≤ f32_round (sse : ℚ) / D := div_nonneg hS hDpos.le
  obtain ⟨m1, m2⟩ := f32_round_bounds (f32_round (sse : ℚ) / D) hR
  have hM : 0 ≤ f32_round (f32_round (sse : ℚ) / D) := f32_round_nonneg _ hR
  -- the exact quotient
  set q : ℚ := (sse : ℚ) / ((n : ℚ) * 255 ^ 2) with hq
  have hqd : q = (sse : ℚ) / (65025 * (n : ℚ)) := by rw [hq]; congr 1; ring
  have hq0 : 0 ≤ q := by rw [hqd]; positivity
  have hq1 : q ≤ 1 := by
    rw [hqd, div_le_one hd]
    exact_mod_cast hsse
  -- quotient of the rounded operands
  have hRhi : f32_round (sse : ℚ) / D
      ≤ (1 + 1 / 16777216) * sse / ((1 - 1 / 16777216) ^ 3 * (65025 * (n : ℚ))) :=
    div_le_div₀ (by positivity) s2 hDlo d1
  have hRlo : (1 - 1 / 16777216) * sse / ((1 + 1 / 16777216) ^ 3 * (65025 * (n : ℚ)))
      ≤ f32_round (sse : ℚ) / D :=
    div_le_div₀ hS s1 hDpos d2
  have ehi : (1 + 1 / 16777216) * (sse : ℚ) / ((1 - 1 / 16777216) ^ 3 * (65025 * (n : ℚ)))
      = (1 + 1 / 16777216) / (1 - 1 / 16777216) ^ 3 * q := by
    rw [hqd]; field_simp; ring
  have elo : (1 - 1 / 16777216) * (sse : ℚ) / ((1 + 1 / 16777216) ^ 3 * (65025 * (n : ℚ)))
      = (1 - 1 / 16777216) / (1 + 1 / 16777216) ^ 3 * q := by
    rw [hqd]; field_simp; ring
  rw [ehi] at hRhi
  rw [elo] at hRlo
  have hMhi : f32_round (f32_round (sse : ℚ) / D)
      ≤ (1 + 1 / 16777216) * ((1 + 1 / 16777216) / (1 - 1 / 16777216) ^ 3 * q) :=
    le_trans m2 (by gcongr)
  have hMlo : (1 - 1 / 16777216) * ((1 - 1 / 16777216) / (1 + 1 / 16777216) ^ 3 * q)
      ≤ f32_round (f32_round (sse : ℚ) / D) :=
    le_trans (by gcongr) m1
  have khi : (1 + 1 / 16777216 : ℚ) * ((1 + 1 / 16777216) / (1 - 1 / 16777216) ^ 3 * q)
      ≤ q + 1 / 2 ^ 21 := by
    have : (1 + 1 / 16777216 : ℚ) * ((1 + 1 / 16777216) / (1 - 1 / 16777216) ^ 3 * q)
        = q + ((1 + 1 / 16777216) * ((1 + 1 / 16777216) / (1 - 1 / 16777216) ^ 3) - 1) * q := by
      ring
    rw [this]
    have c : ((1 + 1 / 16777216 : ℚ) * ((1 + 1 / 16777216) / (1 - 1 / 16777216) ^ 3) - 1)
        ≤ 1 / 2 ^ 21 := by norm_num
    have c0 : (0 : ℚ) ≤ ((1 + 1 / 16777216 : ℚ) * ((1 + 1 / 16777216) / (1 - 1 / 16777216) ^ 3) - 1) := by
      norm_num
    nlinarith only [c, c0, hq0, hq1]
  have klo : q - 1 / 2 ^ 21
      ≤ (1 - 1 / 16777216 : ℚ) * ((1 - 1 / 16777216) / (1 + 1 / 16777216) ^ 3 * q) := by
    have : (1 - 1 / 16777216 : ℚ) * ((1 - 1 / 16777216) / (1 + 1 / 16777216) ^ 3 * q)
        = q - (1 - (1 - 1 / 16777216) * ((1 - 1 / 16777216) / (1 + 1 / 16777216) ^ 3)) * q := by
      ring
    rw [this]
    have c : (1 - (1 - 1 / 16777216 : ℚ) * ((1 - 1 / 16777216) / (1 + 1 / 16777216) ^ 3))
        ≤ 1 / 2 ^ 21 := by norm_num
    have c0 : (0 : ℚ) ≤ (1 - (1 - 1 / 16777216 : ℚ) * ((1 - 1 / 16777216) / (1 + 1 / 16777216) ^ 3)) := by
      norm_num
    nlinarith only [c, c0, hq0, hq1]
  have hMabs : |f32_round (f32_round (sse : ℚ) / D) - q| ≤ 1 / 2 ^ 21 := by
    rw [abs_le]
    constructor
    · linarith only [hMlo, klo]
    · linarith only [hMhi, khi]
  have hsim := f32_round_rel (1 - f32_round (f32_round (sse : ℚ) / D))
  have e24 : (2 : ℚ) ^ (-24 : ℤ) = 1 / 16777216 := by norm_num
  rw [e24] at hsim
  have h2 := abs_le.1 hMabs
  have hone : |1 - f32_round (f32_round (sse : ℚ) / D)| ≤ 1 := by
    rw [abs_le]
    constructor
    · linarith only [h2.2, hq1]
    · linarith only [hM]
  unfold f32_div f32_of_nat mse_to_similarity f32_sub
  refine ⟨hM, le_trans hMabs (by norm_num), ?_⟩
  have e1 : |1 - f32_round (f32_round (sse : ℚ) / D) - (1 - q)|
      = |f32_round (f32_round (sse : ℚ) / D) - q| := by
    rw [← abs_neg]; congr 1; ring
  calc |f32_round (1 - f32_round (f32_round (sse : ℚ) / D)) - (1 - q)|
      ≤ |f32_round (1 - f32_round (f32_round (sse : ℚ) / D))
            - (1 - f32_round (f32_round (sse : ℚ) / D))|
          + |1 - f32_round (f32_round (sse : ℚ) / D) - (1 - q)| := abs_sub_le _ _ _
    _ ≤ 1 / 16777216 * 1 + 1 / 2 ^ 21 := by
        rw [e1]
        exact add_le_add (le_trans hsim (by gcongr)) hMabs
    _ ≤ 1 / 10 ^ 6 := by norm_num

/-! ## Comparison: identity, rejection, symmetry -/

theorem sse_loop_self (a : Buffer) (w h s : Nat) : sse_loop a a w h s s = 0 := by
  rw [sse_loop_eq]
  simp [sq_diff_self]

theorem sse_loop_comm (a b : Buffer) (w h s : Nat) :
    sse_loop a b w h s s = sse_loop b a w h s s := by
  rw [sse_loop_eq, sse_loop_eq]
  congr 1
  refine Finset.sum_congr rfl (fun y _ => Finset.sum_congr rfl (fun x _ =>
    Finset.sum_congr rfl (fun c _ => sq_diff_comm _ _)))

/-- The stride check passes whenever the stride covers `width * 4` bytes. -/
theorem stride_check_passes (w s : Nat) (hs : w * 4 ≤ s) :
    ¬ s < w * BGRA_CHANNELS % U32_MOD := by
  have : w * BGRA_CHANNELS % U32_MOD ≤ w * 4 := Nat.mod_le _ _
  omega

/-- Value of `calculate_mse_bgra` once both checks are passed. -/
theorem calculate_mse_bgra_passed (a b : Buffer) (w h s : Nat)
    (hs : ¬ s < w * BGRA_CHANNELS % U32_MOD) :
    calculate_mse_bgra (some a) (some b) w h s s
      = if w * h * BGRA_CHANNELS % U64_MOD = 0 then 0
        else f32_div (f32_of_nat (sse_loop a b w h s s))
          (f32_mul (f32_mul (f32_of_nat (w * h * BGRA_CHANNELS % U64_MOD)) 255) 255) := by
  simp [calculate_mse_bgra, hs]

/-- C2: comparing a frame with itself gives zero error and full similarity,
exactly: for every non-null buffer `a` and every width, height and stride with
`stride >= width * 4`, `calculate_mse_bgra(a, a, ...)` is `0`, and
`compare_screenshots(f, f)` is `1.0` for a frame `f` of that layout holding `a`. -/
theorem identical_frames_exact (a : Buffer) (width height stride : Nat)
    (hs : width * 4 ≤ stride) (mem : Memory) (f : screenshot_t)
    (hdata : deref mem f.data = some a) (hw : f.width = width) (hh : f.height = height)
    (hst : f.stride = stride) :
    calculate_mse_bgra (some a) (some a) width height stride stride = 0
    ∧ compare_screenshots mem f f = 1 := by
  have hmse : calculate_mse_bgra (some a) (some a) width height stride stride = 0 := by
    rw [calculate_mse_bgra_passed a a width height stride (stride_check_passes width stride hs),
      sse_loop_self]
    split_ifs
    · rfl
    · simp [f32_div, f32_of_nat, f32_round_zero]
  refine ⟨hmse, ?_⟩
  simp only [compare_screenshots, ne_eq, not_true_eq_false, or_self, if_false, hdata, hw, hh,
    hst, hmse, lt_self_iff_false, mse_to_similarity, f32_sub, sub_zero, f32_round_one]

/-- A frame of 2 x 2 pixels with stride 12 (4 bytes of padding per row),
mapped at address 4096, every byte 7. -/
theorem identical_frames_exact_witness :
    calculate_mse_bgra (some (fun _ => 7)) (some (fun _ => 7)) 2 2 12 12 = 0
    ∧ compare_screenshots (fun _ => 7)
        { data := 4096, width := 2, height := 2, stride := 12, size := 24 }
        { data := 4096, width := 2, height := 2, stride := 12, size := 24 } = 1 :=
  identical_frames_exact (fun _ => 7) 2 2 12 (by decide) (fun _ => 7)
    { data := 4096, width := 2, height := 2, stride := 12, size := 24 }
    (by simp [deref]) rfl rfl rfl

/-- C3: with two non-null buffers, whatever the width, the height and the
contents, strides that differ make `calculate_mse_bgra` return the error
sentinel `-1.0`, which is not a score in `[0, 1]`. -/
theorem stride_mismatch_rejected (a b : Buffer) (width height stride1 stride2 : Nat)
    (hne : stride1 ≠ stride2) :
    calculate_mse_bgra (some a) (some b) width height stride1 stride2 = -1
    ∧ ¬ (0 ≤ calculate_mse_bgra (some a) (some b) width height stride1 stride2
          ∧ calculate_mse_bgra (some a) (some b) width height stride1 stride2 ≤ 1) := by
  have h : calculate_mse_bgra (some a) (some b) width height stride1 stride2 = -1 := by
    simp [calculate_mse_bgra, hne]
  rw [h]
  norm_num

/-- The strides of the unit test: 1920 x 1080 with 7680 against 7720 bytes per row. -/
theorem stride_mismatch_rejected_witness :
    calculate_mse_bgra (some (fun _ => 0)) (some (fun _ => 0)) 1920 1080 7680 7720 = -1
    ∧ ¬ (0 ≤ calculate_mse_bgra (some (fun _ => 0)) (some (fun _ => 0)) 1920 1080 7680 7720
          ∧ calculate_mse_bgra (some (fun _ => 0)) (some (fun _ => 0)) 1920 1080 7680 7720 ≤ 1) :=
  stride_mismatch_rejected (fun _ => 0) (fun _ => 0) 1920 1080 7680 7720 (by decide)

theorem calculate_mse_bgra_comm (img1 img2 : Option Buffer) (w h s1 s2 : Nat) :
    calculate_mse_bgra img1 img2 w h s1 s2 = calculate_mse_bgra img2 img1 w h s2 s1 := by
  cases img1 with
  | none => cases img2 <;> rfl
  | some a =>
    cases img2 with
    | none => rfl
    | some b =>
      by_cases hne : s1 = s2
      · subst hne
        simp only [calculate_mse_bgra, sse_loop_comm a b]
      · have hne' : s2 ≠ s1 := fun e => hne e.symm
        simp [calculate_mse_bgra, hne, hne']

/-- C5: comparison is symmetric.  For all buffers (null or not), widths,
heights and strides, `calculate_mse_bgra(a, b, w, h, s1, s2)` equals
`calculate_mse_bgra(b, a, w, h, s2, s1)`, and for all frames
`compare_screenshots(f, g)` equals `compare_screenshots(g, f)`, error values
included. -/
theorem comparison_symmetric (img1 img2 : Option Buffer) (width height stride1 stride2 : Nat)
    (mem : Memory) (f g : screenshot_t) :
    calculate_mse_bgra img1 img2 width height stride1 stride2
      = calculate_mse_bgra img2 img1 width height stride2 stride1
    ∧ compare_screenshots mem f g = compare_screenshots mem g f := by
  refine ⟨calculate_mse_bgra_comm _ _ _ _ _ _, ?_⟩
  unfold compare_screenshots
  by_cases hd : f.width ≠ g.width ∨ f.height ≠ g.height ∨ f.stride ≠ g.stride
  · have hd' : g.width ≠ f.width ∨ g.height ≠ f.height ∨ g.stride ≠ f.stride := by
      rcases hd with h | h | h
      · exact Or.inl (fun e => h e.symm)
      · exact Or.inr (Or.inl (fun e => h e.symm))
      · exact Or.inr (Or.inr (fun e => h e.symm))
    rw [if_pos hd, if_pos hd']
  · have hd' : ¬ (g.width ≠ f.width ∨ g.height ≠ f.height ∨ g.stride ≠ f.stride) := by
      intro h
      apply hd
      rcases h with h | h | h
      · exact Or.inl (fun e => h e.symm)
      · exact Or.inr (Or.inl (fun e => h e.symm))
      · exact Or.inr (Or.inr (fun e => h e.symm))
    rw [if_neg hd, if_neg hd']
    simp only [ne_eq, not_or, not_not] at hd
    obtain ⟨e1, e2, e3⟩ := hd
    rw [calculate_mse_bgra_comm (deref mem f.data) (deref mem g.data), e1, e2, e3]

/-! ## Comparison: the normalised error -/

/-- Evaluation of one rounding away from a tie. -/
theorem f32_round_eq (q : ℚ) (e m : ℤ) (r : ℚ) (h1 : (2 : ℚ) ^ e ≤ |q|)
    (h2 : |q| < 2 ^ (e + 1)) (hm : |q / 2 ^ (e - 23) - m| < 1 / 2)
    (hr : (m : ℚ) * 2 ^ (e - 23) = r) : f32_round q = r := by
  rw [f32_round_eval q e m h1 h2 (round_half_even_of_lt _ m hm), hr]

/-- Evaluation of one rounding of a positive value away from a tie. -/
theorem f32_round_eq_pos (q : ℚ) (e m : ℤ) (r : ℚ) (h1 : (2 : ℚ) ^ e ≤ q)
    (h2 : q < 2 ^ (e + 1)) (hlo : (m : ℚ) - 1 / 2 < q / 2 ^ (e - 23))
    (hhi : q / 2 ^ (e - 23) < (m : ℚ) + 1 / 2)
    (hr : (m : ℚ) * 2 ^ (e - 23) = r) : f32_round q = r := by
  have hq : 0 < q := lt_of_lt_of_le (by positivity) h1
  refine f32_round_eq q e m r ?_ ?_ ?_ hr
  · rwa [abs_of_pos hq]
  · rwa [abs_of_pos hq]
  · rw [abs_lt]; constructor <;> linarith

/-- Value of `calculate_mse_bgra` on a frame whose rows all start below
4 GiB: the float quotient of the sum the specification writes. -/
theorem calculate_mse_bgra_small_frame (a b : Buffer) (w h s : Nat) (hs : s < 2 ^ 32)
    (hw : w * 4 ≤ s) (hpix : 1 ≤ w * h) (hrow : (h - 1) * s < 2 ^ 32) :
    calculate_mse_bgra (some a) (some b) w h s s
      = f32_div (f32_of_nat (sse_exact a b w h s))
          (f32_mul (f32_mul (f32_of_nat (w * h * 4)) 255) 255) := by
  have hpc := pixel_count_small w h s hs hw hrow
  have hmod : w * h * BGRA_CHANNELS % U64_MOD = w * h * 4 := by
    unfold BGRA_CHANNELS U64_MOD
    exact Nat.mod_eq_of_lt (by omega)
  rw [calculate_mse_bgra_passed a b w h s (stride_check_passes w s hw), hmod,
    sse_loop_exact a b w h s hs hw hrow]
  rw [if_neg (by omega)]

/-- Value of `compare_screenshots` on two frames of one layout with non-null
data whose comparison did not fail. -/
theorem compare_screenshots_same_layout (mem : Memory) (f g : screenshot_t) (a b : Buffer)
    (hf : deref mem f.data = some a) (hg : deref mem g.data = some b)
    (hw : g.width = f.width) (hh : g.height = f.height) (hst : g.stride = f.stride)
    (hmse : 0 ≤ calculate_mse_bgra (some a) (some b) f.width f.height f.stride f.stride) :
    compare_screenshots mem f g
      = mse_to_similarity
          (calculate_mse_bgra (some a) (some b) f.width f.height f.stride f.stride) := by
  unfold compare_screenshots
  rw [hf, hg, hw, hh, hst]
  simp [not_lt.2 hmse]

theorem sse_exact_max (a b : Buffer) (w h s : Nat)
    (hmax : ∀ y x c, y < h → x < w → c < 4 →
      (a (y * s + x * 4 + c) = 0 ∧ b (y * s + x * 4 + c) = 255)
      ∨ (a (y * s + x * 4 + c) = 255 ∧ b (y * s + x * 4 + c) = 0)) :
    sse_exact a b w h s = 65025 * (w * h * 4) := by
  unfold sse_exact
  have hterm : ∀ y ∈ Finset.range h, ∀ x ∈ Finset.range w, ∀ c ∈ Finset.range 4,
      sq_diff (a (y * s + x * 4 + c)) (b (y * s + x * 4 + c)) = 65025 := by
    intro y hy x hx c hc
    rcases hmax y x c (Finset.mem_range.1 hy) (Finset.mem_range.1 hx) (Finset.mem_range.1 hc)
      with ⟨e1, e2⟩ | ⟨e1, e2⟩ <;> rw [e1, e2] <;> decide
  rw [Finset.sum_congr rfl (fun y hy => Finset.sum_congr rfl (fun x hx =>
    Finset.sum_congr rfl (fun c hc => hterm y hy x hx c hc)))]
  simp only [Finset.sum_const, Finset.card_range, smul_eq_mul]
  ring

/-- The float quotient for a 1366 x 767 frame whose every channel differs by
255: numerator and denominator round to different values. -/
theorem quotient_1366x767 :
    f32_div (f32_of_nat (65025 * (1366 * 767 * 4)))
      (f32_mul (f32_mul (f32_of_nat (1366 * 767 * 4)) 255) 255) = 8388609 / 8388608 := by
  have hP : f32_of_nat (1366 * 767 * 4) = 4190888 := by
    unfold f32_of_nat
    norm_num
    exact f32_round_eq_pos _ 21 16763552 _ (by norm_num) (by norm_num) (by norm_num)
      (by norm_num) (by norm_num)
  have hP1 : f32_mul 4190888 255 = 1068676416 := by
    unfold f32_mul
    norm_num
    exact f32_round_eq_pos _ 29 16698069 _ (by norm_num) (by norm_num) (by norm_num)
      (by norm_num) (by norm_num)
  have hD : f32_mul 1068676416 255 = 272512483328 := by
    unfold f32_mul
    norm_num
    exact f32_round_eq_pos _ 37 16632842 _ (by norm_num) (by norm_num) (by norm_num)
      (by norm_num) (by norm_num)
  have hS : f32_of_nat (65025 * (1366 * 767 * 4)) = 272512499712 := by
    unfold f32_of_nat
    norm_num
    exact f32_round_eq_pos _ 37 16632843 _ (by norm_num) (by norm_num) (by norm_num)
      (by norm_num) (by norm_num)
  rw [hP, hP1, hD, hS]
  unfold f32_div
  exact f32_round_eq_pos _ 0 8388609 _ (by norm_num) (by norm_num) (by norm_num)
      (by norm_num) (by norm_num)

/-- The float quotient for a 1919 x 1080 frame whose every channel differs by
255, and the similarity computed from it. -/
theorem quotient_1919x1080 :
    f32_div (f32_of_nat (65025 * (1919 * 1080 * 4)))
      (f32_mul (f32_mul (f32_of_nat (1919 * 1080 * 4)) 255) 255) = 16777215 / 16777216
    ∧ mse_to_similarity (16777215 / 16777216) = 1 / 16777216 := by
  have hP : f32_of_nat (1919 * 1080 * 4) = 8290080 := by
    unfold f32_of_nat
    norm_num
    exact f32_round_eq_pos _ 22 16580160 _ (by norm_num) (by norm_num) (by norm_num)
      (by norm_num) (by norm_num)
  have hP1 : f32_mul 8290080 255 = 2113970432 := by
    unfold f32_mul
    norm_num
    exact f32_round_eq_pos _ 30 16515394 _ (by norm_num) (by norm_num) (by norm_num)
      (by norm_num) (by norm_num)
  have hD : f32_mul 2113970432 255 = 539062468608 := by
    unfold f32_mul
    norm_num
    exact f32_round_eq_pos _ 38 16450881 _ (by norm_num) (by norm_num) (by norm_num)
      (by norm_num) (by norm_num)
  have hS : f32_of_nat (65025 * (1919 * 1080 * 4)) = 539062435840 := by
    unfold f32_of_nat
    norm_num
    exact f32_round_eq_pos _ 38 16450880 _ (by norm_num) (by norm_num) (by norm_num)
      (by norm_num) (by norm_num)
  constructor
  · rw [hP, hP1, hD, hS]
    unfold f32_div
    exact f32_round_eq_pos _ (-1) 16777215 _ (by norm_num) (by norm_num) (by norm_num)
      (by norm_num) (by norm_num)
  · unfold mse_to_similarity f32_sub
    exact f32_round_eq_pos _ (-24) 8388608 _ (by norm_num) (by norm_num) (by norm_num)
      (by norm_num) (by norm_num)

/-- C1 (amended): for non-null buffers `a`, `b` and a common layout with
`stride >= width * 4`, `width * height >= 1` and every row starting below
4 GiB (`(height - 1) * stride < 2^32`), `calculate_mse_bgra` returns the
binary32 value of `(float)sse / (n * 255.0f * 255.0f)` with `n = width *
height * 4` and `sse` the sum of the squared channel differences at offsets
`y * stride + x * 4 + c`; that value lies within `10^-6` of
`sse / (n * 255^2)`.  `compare_screenshots` on two frames of that layout
returns `1.0f - mse`, within `10^-6` of `1 - sse / (n * 255^2)`. -/
theorem mse_normalisation (a b : Buffer) (width height stride : Nat)
    (hs : stride < 2 ^ 32) (hw : width * 4 ≤ stride) (hpix : 1 ≤ width * height)
    (hrow : (height - 1) * stride < 2 ^ 32) (mem : Memory) (f g : screenshot_t)
    (hf : deref mem f.data = some a) (hg : deref mem g.data = some b)
    (hfl : f.width = width ∧ f.height = height ∧ f.stride = stride)
    (hgl : g.width = width ∧ g.height = height ∧ g.stride = stride) :
    calculate_mse_bgra (some a) (some b) width height stride stride
      = f32_div (f32_of_nat (sse_exact a b width height stride))
          (f32_mul (f32_mul (f32_of_nat (width * height * 4)) 255) 255)
    ∧ |calculate_mse_bgra (some a) (some b) width height stride stride
        - (sse_exact a b width height stride : ℚ) / (((width * height * 4 : ℕ) : ℚ) * 255 ^ 2)|
        ≤ 1 / 10 ^ 6
    ∧ compare_screenshots mem f g
        = mse_to_similarity (calculate_mse_bgra (some a) (some b) width height stride stride)
    ∧ |compare_screenshots mem f g
        - (1 - (sse_exact a b width height stride : ℚ)
            / (((width * height * 4 : ℕ) : ℚ) * 255 ^ 2))| ≤ 1 / 10 ^ 6 := by
  obtain ⟨fw, fh, fs⟩ := hfl
  obtain ⟨gw, gh, gs⟩ := hgl
  have hval := calculate_mse_bgra_small_frame a b width height stride hs hw hpix hrow
  obtain ⟨e0, e1, e2⟩ := mse_value_error (sse_exact a b width height stride)
    (width * height * 4) (by omega) (sse_exact_le a b width height stride)
  have hcmp : compare_screenshots mem f g
      = mse_to_similarity
          (calculate_mse_bgra (some a) (some b) width height stride stride) := by
    have := compare_screenshots_same_layout mem f g a b hf hg (by rw [gw, fw]) (by rw [gh, fh])
      (by rw [gs, fs]) (by rw [fw, fh, fs, hval]; exact e0)
    rw [this, fw, fh, fs]
  refine ⟨hval, ?_, hcmp, ?_⟩
  · rw [hval]; exact e1
  · rw [hcmp, hval]; exact e2

/-- Two 1 x 1 frames with stride 4 in a memory of zero bytes. -/
theorem mse_normalisation_witness :
    calculate_mse_bgra (some (fun _ => 0)) (some (fun _ => 0)) 1 1 4 4
      = f32_div (f32_of_nat (sse_exact (fun _ => 0) (fun _ => 0) 1 1 4))
          (f32_mul (f32_mul (f32_of_nat (1 * 1 * 4)) 255) 255)
    ∧ |calculate_mse_bgra (some (fun _ => 0)) (some (fun _ => 0)) 1 1 4 4
        - (sse_exact (fun _ => 0) (fun _ => 0) 1 1 4 : ℚ) / (((1 * 1 * 4 : ℕ) : ℚ) * 255 ^ 2)|
        ≤ 1 / 10 ^ 6
    ∧ compare_screenshots (fun _ => 0)
          { data := 4096, width := 1, height := 1, stride := 4, size := 4 }
          { data := 8192, width := 1, height := 1, stride := 4, size := 4 }
        = mse_to_similarity (calculate_mse_bgra (some (fun _ => 0)) (some (fun _ => 0)) 1 1 4 4)
    ∧ |compare_screenshots (fun _ => 0)
          { data := 4096, width := 1, height := 1, stride := 4, size := 4 }
          { data := 8192, width := 1, height := 1, stride := 4, size := 4 }
        - (1 - (sse_exact (fun _ => 0) (fun _ => 0) 1 1 4 : ℚ)
            / (((1 * 1 * 4 : ℕ) : ℚ) * 255 ^ 2))| ≤ 1 / 10 ^ 6 :=
  mse_normalisation (fun _ => 0) (fun _ => 0) 1 1 4 (by decide) (by decide) (by decide)
    (by decide) (fun _ => 0)
    { data := 4096, width := 1, height := 1, stride := 4, size := 4 }
    { data := 8192, width := 1, height := 1, stride := 4, size := 4 }
    (by simp [deref]) (by simp [deref]) ⟨rfl, rfl, rfl⟩ ⟨rfl, rfl, rfl⟩

/-- C1 as stated fails: on 1366 x 767 frames (stride 5464) of which one is all
0 and the other all 255, `sse / (width * height * 4 * 255^2)` is exactly `1`,
yet `calculate_mse_bgra` returns `8388609 / 8388608`, the float quotient of a
rounded numerator by a three times rounded denominator. -/
theorem mse_normalisation_counterexample :
    1366 * 4 ≤ 5464 ∧ 1 ≤ 1366 * 767
    ∧ (sse_exact (fun _ => 0) (fun _ => 255) 1366 767 5464 : ℚ)
        / (1366 * 767 * 4 * 255 ^ 2) = 1
    ∧ calculate_mse_bgra (some (fun _ => 0)) (some (fun _ => 255)) 1366 767 5464 5464
        = 8388609 / 8388608
    ∧ calculate_mse_bgra (some (fun _ => 0)) (some (fun _ => 255)) 1366 767 5464 5464
        ≠ (sse_exact (fun _ => 0) (fun _ => 255) 1366 767 5464 : ℚ)
            / (1366 * 767 * 4 * 255 ^ 2) := by
  have hsse : sse_exact (fun _ => 0) (fun _ => 255) 1366 767 5464 = 65025 * (1366 * 767 * 4) :=
    sse_exact_max _ _ _ _ _ (fun _ _ _ _ _ _ => Or.inl ⟨rfl, rfl⟩)
  have hq : (sse_exact (fun _ => 0) (fun _ => 255) 1366 767 5464 : ℚ)
      / (1366 * 767 * 4 * 255 ^ 2) = 1 := by
    rw [hsse]; norm_num
  have hval : calculate_mse_bgra (some (fun _ => 0)) (some (fun _ => 255)) 1366 767 5464 5464
      = 8388609 / 8388608 := by
    rw [calculate_mse_bgra_small_frame _ _ 1366 767 5464 (by norm_num) (by norm_num)
      (by norm_num) (by norm_num), hsse]
    exact quotient_1366x767
  refine ⟨by norm_num, by norm_num, hq, hval, ?_⟩
  rw [hval, hq]
  norm_num

/-- C4 (amended): for `width >= 1`, `height >= 1`, a common stride
`>= width * 4` and every row starting below 4 GiB, if in every channel of
every pixel one frame holds 0 and the other 255, then `calculate_mse_bgra`
returns 1 within the tolerance `10^-6` and `compare_screenshots` returns 0
within `10^-6`. -/
theorem max_difference_frames (a b : Buffer) (width height stride : Nat)
    (hw1 : 1 ≤ width) (hh1 : 1 ≤ height) (hs : stride < 2 ^ 32) (hw : width * 4 ≤ stride)
    (hrow : (height - 1) * stride < 2 ^ 32)
    (hmax : ∀ y x c, y < height → x < width → c < 4 →
      (a (y * stride + x * 4 + c) = 0 ∧ b (y * stride + x * 4 + c) = 255)
      ∨ (a (y * stride + x * 4 + c) = 255 ∧ b (y * stride + x * 4 + c) = 0))
    (mem : Memory) (f g : screenshot_t)
    (hf : deref mem f.data = some a) (hg : deref mem g.data = some b)
    (hfl : f.width = width ∧ f.height = height ∧ f.stride = stride)
    (hgl : g.width = width ∧ g.height = height ∧ g.stride = stride) :
    |calculate_mse_bgra (some a) (some b) width height stride stride - 1| ≤ 1 / 10 ^ 6
    ∧ |compare_screenshots mem f g| ≤ 1 / 10 ^ 6 := by
  have hpix : 1 ≤ width * height := Nat.mul_pos hw1 hh1
  obtain ⟨fw, fh, fs⟩ := hfl
  obtain ⟨gw, gh, gs⟩ := hgl
  have hval := calculate_mse_bgra_small_frame a b width height stride hs hw hpix hrow
  have hsse := sse_exact_max a b width height stride hmax
  obtain ⟨e0, e1, e2⟩ := mse_value_error (sse_exact a b width height stride)
    (width * height * 4) (by omega) (sse_exact_le a b width height stride)
  have hn : ((width * height * 4 : ℕ) : ℚ) ≠ 0 := by
    have : 0 < width * height * 4 := by omega
    exact_mod_cast this.ne'
  have hq : (sse_exact a b width height stride : ℚ)
      / (((width * height * 4 : ℕ) : ℚ) * 255 ^ 2) = 1 := by
    rw [hsse]
    push_cast
    field_simp
    ring
  rw [hq] at e1 e2
  have hcmp := compare_screenshots_same_layout mem f g a b hf hg (by rw [gw, fw])
    (by rw [gh, fh]) (by rw [gs, fs]) (by rw [fw, fh, fs, hval]; exact e0)
  rw [fw, fh, fs] at hcmp
  rw [hcmp, hval]
  refine ⟨e1, ?_⟩
  simpa using e2

/-- A 2 x 2 frame at address 4096 against one at address `2^32`, stride 12, in
a memory holding 0 below `2^32` and 255 from there on. -/
theorem max_difference_frames_witness :
    |calculate_mse_bgra (some (fun i => if 4096 + i < 2 ^ 32 then 0 else 255))
        (some (fun i => if 2 ^ 32 + i < 2 ^ 32 then 0 else 255)) 2 2 12 12 - 1| ≤ 1 / 10 ^ 6
    ∧ |compare_screenshots (fun i => if i < 2 ^ 32 then 0 else 255)
        { data := 4096, width := 2, height := 2, stride := 12, size := 24 }
        { data := 2 ^ 32, width := 2, height := 2, stride := 12, size := 24 }| ≤ 1 / 10 ^ 6 :=
  max_difference_frames (fun i => if 4096 + i < 2 ^ 32 then 0 else 255)
    (fun i => if 2 ^ 32 + i < 2 ^ 32 then 0 else 255) 2 2 12
    (by decide) (by decide) (by decide) (by decide) (by decide)
    (fun y x c hy hx hc => Or.inl ⟨if_pos (by omega), if_neg (by omega)⟩)
    (fun i => if i < 2 ^ 32 then 0 else 255)
    { data := 4096, width := 2, height := 2, stride := 12, size := 24 }
    { data := 2 ^ 32, width := 2, height := 2, stride := 12, size := 24 }
    (by simp [deref]) (by simp [deref]) ⟨rfl, rfl, rfl⟩ ⟨rfl, rfl, rfl⟩

/-- C4 as stated fails: on 1919 x 1080 frames (stride 7676), one all 0 and the
other all 255, `calculate_mse_bgra` returns `16777215 / 16777216`, not 1, and
`compare_screenshots` returns `1 / 16777216`, not 0. -/
theorem max_difference_frames_counterexample :
    1 ≤ 1919 ∧ 1 ≤ 1080 ∧ 1919 * 4 ≤ 7676
    ∧ (∀ y x c, y < 1080 → x < 1919 → c < 4 →
        (if 4096 + (y * 7676 + x * 4 + c) < 2 ^ 32 then (0 : Byte) else 255) = 0
        ∧ (if 2 ^ 32 + (y * 7676 + x * 4 + c) < 2 ^ 32 then (0 : Byte) else 255) = 255)
    ∧ calculate_mse_bgra (some (fun i => if 4096 + i < 2 ^ 32 then 0 else 255))
        (some (fun i => if 2 ^ 32 + i < 2 ^ 32 then 0 else 255)) 1919 1080 7676 7676
        = 16777215 / 16777216
    ∧ calculate_mse_bgra (some (fun i => if 4096 + i < 2 ^ 32 then 0 else 255))
        (some (fun i => if 2 ^ 32 + i < 2 ^ 32 then 0 else 255)) 1919 1080 7676 7676 ≠ 1
    ∧ compare_screenshots (fun i => if i < 2 ^ 32 then 0 else 255)
        { data := 4096, width := 1919, height := 1080, stride := 7676, size := 8290080 }
        { data := 2 ^ 32, width := 1919, height := 1080, stride := 7676, size := 8290080 }
        = 1 / 16777216
    ∧ compare_screenshots (fun i => if i < 2 ^ 32 then 0 else 255)
        { data := 4096, width := 1919, height := 1080, stride := 7676, size := 8290080 }
        { data := 2 ^ 32, width := 1919, height := 1080, stride := 7676, size := 8290080 }
        ≠ 0 := by
  have hbytes : ∀ y x c, y < 1080 → x < 1919 → c < 4 →
      (if 4096 + (y * 7676 + x * 4 + c) < 2 ^ 32 then (0 : Byte) else 255) = 0
      ∧ (if 2 ^ 32 + (y * 7676 + x * 4 + c) < 2 ^ 32 then (0 : Byte) else 255) = 255 :=
    fun y x c hy hx hc => ⟨if_pos (by omega), if_neg (by omega)⟩
  have hsse : sse_exact (fun i => if 4096 + i < 2 ^ 32 then (0 : Byte) else 255)
      (fun i => if 2 ^ 32 + i < 2 ^ 32 then (0 : Byte) else 255) 1919 1080 7676
      = 65025 * (1919 * 1080 * 4) :=
    sse_exact_max _ _ _ _ _ (fun y x c hy hx hc => Or.inl (hbytes y x c hy hx hc))
  have hval : calculate_mse_bgra (some (fun i => if 4096 + i < 2 ^ 32 then 0 else 255))
      (some (fun i => if 2 ^ 32 + i < 2 ^ 32 then 0 else 255)) 1919 1080 7676 7676
      = 16777215 / 16777216 := by
    rw [calculate_mse_bgra_small_frame _ _ 1919 1080 7676 (by norm_num) (by norm_num)
      (by norm_num) (by norm_num), hsse]
    exact quotient_1919x1080.1
  have hcmp : compare_screenshots (fun i => if i < 2 ^ 32 then 0 else 255)
      { data := 4096, width := 1919, height := 1080, stride := 7676, size := 8290080 }
      { data := 2 ^ 32, width := 1919, height := 1080, stride := 7676, size := 8290080 }
      = 1 / 16777216 := by
    have h := compare_screenshots_same_layout (fun i => if i < 2 ^ 32 then 0 else 255)
      { data := 4096, width := 1919, height := 1080, stride := 7676, size := 8290080 }
      { data := 2 ^ 32, width := 1919, height := 1080, stride := 7676, size := 8290080 }
      (fun i => if 4096 + i < 2 ^ 32 then 0 else 255)
      (fun i => if 2 ^ 32 + i < 2 ^ 32 then 0 else 255) (by simp [deref]) (by simp [deref])
      rfl rfl rfl (by rw [hval]; norm_num)
    rw [h, hval]
    exact quotient_1919x1080.2
  refine ⟨by norm_num, by norm_num, by norm_num, hbytes, hval, ?_, hcmp, ?_⟩
  · rw [hval]; norm_num
  · rw [hcmp]; norm_num

/-! ## Comparison: row padding -/

/-- On a frame whose rows all start below 4 GiB the padding bytes have no
influence: buffers that agree on the first `width * 4` bytes of every row give
the same result. -/
theorem padding_ignored_small_frame (a a2 b b2 : Buffer) (width height stride : Nat)
    (hs : stride < 2 ^ 32) (hw : width * 4 ≤ stride) (hrow : (height - 1) * stride < 2 ^ 32)
    (ha : ∀ y j, y < height → j < width * 4 → a (y * stride + j) = a2 (y * stride + j))
    (hb : ∀ y j, y < height → j < width * 4 → b (y * stride + j) = b2 (y * stride + j)) :
    calculate_mse_bgra (some a) (some b) width height stride stride
      = calculate_mse_bgra (some a2) (some b2) width height stride stride := by
  have hsse : sse_exact a b width height stride = sse_exact a2 b2 width height stride := by
    unfold sse_exact
    refine Finset.sum_congr rfl (fun y hy => Finset.sum_congr rfl (fun x hx =>
      Finset.sum_congr rfl (fun c hc => ?_)))
    have hy' := Finset.mem_range.1 hy
    have hx' := Finset.mem_range.1 hx
    have hc' := Finset.mem_range.1 hc
    have e : y * stride + x * 4 + c = y * stride + (x * 4 + c) := by ring
    rw [e, ha y (x * 4 + c) hy' (by omega), hb y (x * 4 + c) hy' (by omega)]
  have hp := stride_check_passes width stride hw
  rw [calculate_mse_bgra_passed a b width height stride hp,
    calculate_mse_bgra_passed a2 b2 width height stride hp,
    sse_loop_exact a b width height stride hs hw hrow,
    sse_loop_exact a2 b2 width height stride hs hw hrow, hsse]

/-- C6 at a frame of 9 GiB: width 1, height 3, stride `3 * 2^30`.  The two
first buffers agree on the 4 pixel bytes of each of the three rows and differ
in one padding byte of row 0, at offset `2^31`; the second buffers are equal.
The row offset `2 * stride` wraps in `uint32_t` to `2^31`, so the code reads
that padding byte as row 2 and the two results differ. -/
theorem padding_read_on_wrapped_row :
    1 * 4 ≤ 3 * 2 ^ 30
    ∧ (∀ y j, y < 3 → j < 1 * 4 →
        (fun i => if i = 2 ^ 31 then (1 : Byte) else 0) (y * (3 * 2 ^ 30) + j)
          = (fun _ => (0 : Byte)) (y * (3 * 2 ^ 30) + j))
    ∧ calculate_mse_bgra (some (fun i => if i = 2 ^ 31 then 1 else 0)) (some (fun _ => 0))
        1 3 (3 * 2 ^ 30) (3 * 2 ^ 30) = 11272707 / 8796093022208
    ∧ calculate_mse_bgra (some (fun _ => 0)) (some (fun _ => 0))
        1 3 (3 * 2 ^ 30) (3 * 2 ^ 30) = 0
    ∧ calculate_mse_bgra (some (fun i => if i = 2 ^ 31 then 1 else 0)) (some (fun _ => 0))
        1 3 (3 * 2 ^ 30) (3 * 2 ^ 30)
      ≠ calculate_mse_bgra (some (fun _ => 0)) (some (fun _ => 0))
        1 3 (3 * 2 ^ 30) (3 * 2 ^ 30) := by
  have hagree : ∀ y j, y < 3 → j < 1 * 4 →
      (fun i => if i = 2 ^ 31 then (1 : Byte) else 0) (y * (3 * 2 ^ 30) + j)
        = (fun _ => (0 : Byte)) (y * (3 * 2 ^ 30) + j) := by
    intro y j hy hj
    have : y * (3 * 2 ^ 30) + j ≠ 2 ^ 31 := by
      interval_cases y <;> omega
    exact if_neg this
  have hsse : sse_loop (fun i => if i = 2 ^ 31 then (1 : Byte) else 0) (fun _ => 0)
      1 3 (3 * 2 ^ 30) (3 * 2 ^ 30) = 1 := by
    decide
  have hpass : ¬ (3 * 2 ^ 30 < 1 * BGRA_CHANNELS % U32_MOD) := by decide
  have hpc : 1 * 3 * BGRA_CHANNELS % U64_MOD = 12 := by decide
  have h1 : calculate_mse_bgra (some (fun i => if i = 2 ^ 31 then 1 else 0)) (some (fun _ => 0))
      1 3 (3 * 2 ^ 30) (3 * 2 ^ 30) = 11272707 / 8796093022208 := by
    rw [calculate_mse_bgra_passed _ _ 1 3 (3 * 2 ^ 30) hpass, hsse, hpc, if_neg (by decide)]
    have hP : f32_of_nat 12 = 12 := by
      unfold f32_of_nat
      norm_num
      exact f32_round_eq_pos _ 3 12582912 _ (by norm_num) (by norm_num) (by norm_num)
        (by norm_num) (by norm_num)
    have hP1 : f32_mul 12 255 = 3060 := by
      unfold f32_mul
      norm_num
      exact f32_round_eq_pos _ 11 12533760 _ (by norm_num) (by norm_num) (by norm_num)
        (by norm_num) (by norm_num)
    have hD : f32_mul 3060 255 = 780300 := by
      unfold f32_mul
      norm_num
      exact f32_round_eq_pos _ 19 12484800 _ (by norm_num) (by norm_num) (by norm_num)
        (by norm_num) (by norm_num)
    have hS : f32_of_nat 1 = 1 := by
      unfold f32_of_nat
      norm_num
      exact f32_round_one
    rw [hP, hP1, hD, hS]
    unfold f32_div
    exact f32_round_eq_pos _ (-20) 11272707 _ (by norm_num) (by norm_num) (by norm_num)
      (by norm_num) (by norm_num)
  have h2 : calculate_mse_bgra (some (fun _ => 0)) (some (fun _ => 0))
      1 3 (3 * 2 ^ 30) (3 * 2 ^ 30) = 0 := by
    rw [calculate_mse_bgra_passed _ _ 1 3 (3 * 2 ^ 30) hpass, sse_loop_self, hpc,
      if_neg (by decide)]
    simp [f32_div, f32_of_nat, f32_round_zero]
  refine ⟨by norm_num, hagree, h1, h2, ?_⟩
  rw [h1, h2]
  norm_num

/-! ## The capture loop -/

/-- A call of `capture_screenshot` that does not return 0 leaves the
`screenshot_t` as it was and releases nothing. -/
theorem capture_failure_unchanged (env : CaptureEnv) (shot : screenshot_t)
    (h : (capture_screenshot env shot).1 ≠ 0) :
    capture_screenshot env shot = ((capture_screenshot env shot).1, shot, []) := by
  by_cases h1 : env.memfd < 0
  · simp [capture_screenshot, h1]
  · by_cases h2 : (call_capture env).1 < 0
    · simp [capture_screenshot, h1, h2]
    · by_cases h3 : (parse_reply (call_capture env).2).w = 0
          ∨ (parse_reply (call_capture env).2).h = 0
          ∨ (parse_reply (call_capture env).2).stride = 0
      · simp [capture_screenshot, h1, h2, h3]
      · cases hm : env.mmap ((parse_reply (call_capture env).2).stride
            * (parse_reply (call_capture env).2).h % U64_MOD) with
        | none => simp [capture_screenshot, h1, h2, h3, hm]
        | some d => simp [capture_screenshot, h1, h2, h3, hm] at h

/-- The events of `capture_screenshot` hold no persist job. -/
theorem capture_no_persist (env : CaptureEnv) (shot : screenshot_t) :
    persist_jobs (capture_screenshot env shot).2.2 = [] := by
  by_cases h1 : env.memfd < 0
  · simp [capture_screenshot, h1, persist_jobs]
  · by_cases h2 : (call_capture env).1 < 0
    · simp [capture_screenshot, h1, h2, persist_jobs]
    · by_cases h3 : (parse_reply (call_capture env).2).w = 0
          ∨ (parse_reply (call_capture env).2).h = 0
          ∨ (parse_reply (call_capture env).2).stride = 0
      · simp [capture_screenshot, h1, h2, h3, persist_jobs]
      · cases hm : env.mmap ((parse_reply (call_capture env).2).stride
            * (parse_reply (call_capture env).2).h % U64_MOD) with
        | none => simp [capture_screenshot, h1, h2, h3, hm, persist_jobs]
        | some d =>
          by_cases h4 : shot.data ≠ 0 ∧ 0 < shot.size
          · simp [capture_screenshot, h1, h2, h3, hm, h4, persist_jobs]
          · simp [capture_screenshot, h1, h2, h3, hm, h4, persist_jobs]

/-- The iteration after a capture that returned a negative value. -/
theorem loop_iteration_failure (config : config_t) (env : IterEnv) (st : LoopState)
    (hfail : (capture_screenshot env.capture st.current).1 < 0) :
    loop_iteration config env st
      = (st, [Event.sleep
          (if (capture_screenshot env.capture st.current).1 = - EIO
              ∨ (capture_screenshot env.capture st.current).1 = - ENOENT
            then 30 else config.interval)]) := by
  have hne : (capture_screenshot env.capture st.current).1 ≠ 0 := by omega
  have hcap := capture_failure_unchanged env.capture st.current hne
  unfold loop_iteration
  rw [hcap]
  simp only [hfail, if_true, List.nil_append]

/-- C9: when `capture_screenshot` fails (`r < 0`), one iteration of the loop
only sleeps: 30 seconds if `r` is `-EIO` or `-ENOENT`, the configured interval
otherwise.  The state (`current`, `last_saved`, `first_shot`) is unchanged and
no persist job is submitted. -/
theorem capture_failure_backoff (config : config_t) (env : IterEnv) (st : LoopState)
    (hfail : (capture_screenshot env.capture st.current).1 < 0) :
    loop_iteration config env st
      = (st, [Event.sleep
          (if (capture_screenshot env.capture st.current).1 = - EIO
              ∨ (capture_screenshot env.capture st.current).1 = - ENOENT
            then 30 else config.interval)])
    ∧ persist_jobs (loop_iteration config env st).2 = [] := by
  have hit := loop_iteration_failure config env st hfail
  refine ⟨hit, ?_⟩
  rw [hit]
  rfl

/-- No output is available, from the state after a first save: the loop
sleeps 30 seconds and nothing changes. -/
theorem capture_failure_backoff_witness :
    (capture_screenshot no_output_env later_state.current).1 = - EIO
    ∧ loop_iteration sample_config
        { capture := no_output_env, mem := fun _ => 0, now := sample_time } later_state
      = (later_state, [Event.sleep 30]) :=
  ⟨by decide,
    (capture_failure_backoff sample_config
      { capture := no_output_env, mem := fun _ => 0, now := sample_time } later_state
      (by decide)).1.trans (by decide)⟩

theorem persist_jobs_append (xs ys : List Event) :
    persist_jobs (xs ++ ys) = persist_jobs xs ++ persist_jobs ys := by
  unfold persist_jobs
  exact List.filterMap_append _ _ _

/-- The iteration after a capture that returned 0. -/
theorem loop_iteration_success (config : config_t) (env : IterEnv) (st : LoopState)
    (cur : screenshot_t) (released : List Event)
    (hcap : capture_screenshot env.capture st.current = (0, cur, released)) :
    loop_iteration config env st
      = if should_save config env.mem st.first_shot cur st.last_saved = true then
          ({ current := empty_shot, last_saved := cur, first_shot := false },
            released ++ [Event.save_async cur (loop_filename config.directory env.now)]
              ++ (if st.last_saved.data ≠ 0
                  then [Event.munmap st.last_saved.data st.last_saved.size] else [])
              ++ [Event.sleep config.interval])
        else
          ({ st with current := if cur.data ≠ 0 then empty_shot else cur },
            released ++ (if cur.data ≠ 0 then [Event.munmap cur.data cur.size] else [])
              ++ [Event.sleep config.interval]) := by
  unfold loop_iteration
  rw [hcap]
  simp only [lt_self_iff_false, if_false]

/-- The decision taken for the first capture and for a later one. -/
theorem should_save_iff (config : config_t) (mem : Memory) (first_shot : Bool)
    (cur last : screenshot_t) (hinv : first_shot = false → last.data ≠ 0) :
    should_save config mem first_shot cur last = true
      ↔ first_shot = true ∨ compare_screenshots mem cur last < config.threshold := by
  unfold should_save
  cases first_shot with
  | true => simp
  | false =>
    have := hinv rfl
    simp [this]

/-- The jobs of an iteration that saves, and of one that skips. -/
theorem persist_jobs_iteration (config : config_t) (env : IterEnv) (st : LoopState)
    (cur : screenshot_t) (released : List Event)
    (hcap : capture_screenshot env.capture st.current = (0, cur, released)) :
    persist_jobs (loop_iteration config env st).2
      = if should_save config env.mem st.first_shot cur st.last_saved = true
        then [(cur, loop_filename config.directory env.now)] else [] := by
  have hrel : persist_jobs released = [] := by
    have := capture_no_persist env.capture st.current
    rwa [hcap] at this
  rw [loop_iteration_success config env st cur released hcap]
  split_ifs with h1 h2 h3
  · simp only [persist_jobs_append, hrel]; rfl
  · simp only [persist_jobs_append, hrel]; rfl
  · simp only [persist_jobs_append, hrel]; rfl
  · simp only [persist_jobs_append, hrel]; rfl

/-- C7: one iteration after a successful capture (`capture_screenshot`
returned 0 and left the mapped frame `cur` in `current`).  The very first
capture is saved; a later capture is saved if and only if
`compare_screenshots(current, last_saved) < threshold`.  An iteration submits
no job or exactly one.  When the frame is skipped, `last_saved` is unchanged
and the captured buffer is unmapped; when it is saved, `last_saved` becomes the
captured frame, the previous `last_saved` buffer (if any) is unmapped, and
`current` is reset to empty. -/
theorem save_or_skip (config : config_t) (env : IterEnv) (st : LoopState)
    (cur : screenshot_t) (released : List Event)
    (hcap : capture_screenshot env.capture st.current = (0, cur, released))
    (hdata : cur.data ≠ 0) (hinv : st.first_shot = false → st.last_saved.data ≠ 0) :
    (st.first_shot = true →
      persist_jobs (loop_iteration config env st).2
        = [(cur, loop_filename config.directory env.now)])
    ∧ (st.first_shot = false →
      (persist_jobs (loop_iteration config env st).2
          = [(cur, loop_filename config.directory env.now)]
        ↔ compare_screenshots env.mem cur st.last_saved < config.threshold))
    ∧ (persist_jobs (loop_iteration config env st).2 = []
      ∨ persist_jobs (loop_iteration config env st).2
          = [(cur, loop_filename config.directory env.now)])
    ∧ (persist_jobs (loop_iteration config env st).2 = [] →
      loop_iteration config env st
        = ({ current := empty_shot, last_saved := st.last_saved, first_shot := st.first_shot },
            released ++ [Event.munmap cur.data cur.size, Event.sleep config.interval]))
    ∧ (persist_jobs (loop_iteration config env st).2
          = [(cur, loop_filename config.directory env.now)] →
      loop_iteration config env st
        = ({ current := empty_shot, last_saved := cur, first_shot := false },
            released ++ [Event.save_async cur (loop_filename config.directory env.now)]
              ++ (if st.last_saved.data ≠ 0
                  then [Event.munmap st.last_saved.data st.last_saved.size] else [])
              ++ [Event.sleep config.interval])) := by
  have hjobs := persist_jobs_iteration config env st cur released hcap
  have hit := loop_iteration_success config env st cur released hcap
  have hiff := should_save_iff config env.mem st.first_shot cur st.last_saved hinv
  by_cases hs : should_save config env.mem st.first_shot cur st.last_saved = true
  · rw [if_pos hs] at hjobs hit
    rw [hjobs]
    refine ⟨fun _ => rfl, fun hf => ⟨fun _ => ?_, fun _ => rfl⟩, Or.inr rfl, fun h => ?_,
      fun _ => hit⟩
    · rcases hiff.1 hs with h | h
      · rw [hf] at h; exact absurd h (by decide)
      · exact h
    · exact absurd h (by simp)
  · rw [if_neg hs] at hjobs hit
    rw [hjobs]
    refine ⟨fun hf => absurd (hiff.2 (Or.inl hf)) hs, fun _ => ⟨fun h => absurd h (by simp),
      fun h => absurd (hiff.2 (Or.inr h)) hs⟩, Or.inl rfl, fun _ => ?_, fun h => absurd h (by simp)⟩
    rw [hit]
    simp [hdata]

/-- A later iteration that captures `captured_frame` while `saved_frame` is the
last saved one. -/
theorem save_or_skip_witness :
    capture_screenshot sample_env.capture later_state.current = (0, captured_frame, [])
    ∧ captured_frame.data ≠ 0
    ∧ (later_state.first_shot = true →
      persist_jobs (loop_iteration sample_config sample_env later_state).2
        = [(captured_frame, loop_filename sample_config.directory sample_env.now)])
    ∧ (later_state.first_shot = false →
      (persist_jobs (loop_iteration sample_config sample_env later_state).2
          = [(captured_frame, loop_filename sample_config.directory sample_env.now)]
        ↔ compare_screenshots sample_env.mem captured_frame later_state.last_saved
            < sample_config.threshold))
    ∧ (persist_jobs (loop_iteration sample_config sample_env later_state).2 = []
      ∨ persist_jobs (loop_iteration sample_config sample_env later_state).2
          = [(captured_frame, loop_filename sample_config.directory sample_env.now)])
    ∧ (persist_jobs (loop_iteration sample_config sample_env later_state).2 = [] →
      loop_iteration sample_config sample_env later_state
        = ({ current := empty_shot, last_saved := later_state.last_saved,
             first_shot := later_state.first_shot },
            [] ++ [Event.munmap captured_frame.data captured_frame.size,
              Event.sleep sample_config.interval]))
    ∧ (persist_jobs (loop_iteration sample_config sample_env later_state).2
          = [(captured_frame, loop_filename sample_config.directory sample_env.now)] →
      loop_iteration sample_config sample_env later_state
        = ({ current := empty_shot, last_saved := captured_frame, first_shot := false },
            [] ++ [Event.save_async captured_frame
                (loop_filename sample_config.directory sample_env.now)]
              ++ (if later_state.last_saved.data ≠ 0
                  then [Event.munmap later_state.last_saved.data later_state.last_saved.size]
                  else [])
              ++ [Event.sleep sample_config.interval])) :=
  ⟨by decide, by decide,
    save_or_skip sample_config sample_env later_state captured_frame [] (by decide) (by decide)
      (by decide)⟩

/-- What a capture that does not report failure has done, when `errno` values
are positive: it mapped the frame. -/
theorem capture_success_mapped (env : CaptureEnv) (shot : screenshot_t)
    (hfd : 0 < env.memfd_errno) (hmm : 0 < env.mmap_errno)
    (hok : ¬ (capture_screenshot env shot).1 < 0) :
    ∃ size data, env.mmap size = some data ∧ (capture_screenshot env shot).1 = 0
      ∧ (capture_screenshot env shot).2.1.data = data := by
  by_cases h1 : env.memfd < 0
  · simp [capture_screenshot, h1] at hok
    all_goals omega
  · by_cases h2 : (call_capture env).1 < 0
    · simp [capture_screenshot, h1, h2] at hok
    · by_cases h3 : (parse_reply (call_capture env).2).w = 0
          ∨ (parse_reply (call_capture env).2).h = 0
          ∨ (parse_reply (call_capture env).2).stride = 0
      · simp [capture_screenshot, h1, h2, h3, EINVAL] at hok
      · cases hm : env.mmap ((parse_reply (call_capture env).2).stride
            * (parse_reply (call_capture env).2).h % U64_MOD) with
        | none =>
          simp [capture_screenshot, h1, h2, h3, hm] at hok
          all_goals omega
        | some d =>
          exact ⟨_, d, hm, by simp [capture_screenshot, h1, h2, h3, hm],
            by simp [capture_screenshot, h1, h2, h3, hm]⟩

/-- The invariant holds when the capture loop is entered. -/
theorem initial_state_invariant :
    initial_state.first_shot = false → initial_state.last_saved.data ≠ 0 := by
  decide

/-- The loop keeps the invariant assumed of its states: once the first shot is
taken, `last_saved` holds a mapped buffer.  It holds of `initial_state`, and
every iteration preserves it when `errno` values are positive and `mmap` never
returns the null address. -/
theorem loop_invariant_preserved (config : config_t) (env : IterEnv) (st : LoopState)
    (hfd : 0 < env.capture.memfd_errno) (hmm : 0 < env.capture.mmap_errno)
    (hnull : ∀ size, env.capture.mmap size ≠ some 0)
    (hinv : st.first_shot = false → st.last_saved.data ≠ 0) :
    (loop_iteration config env st).1.first_shot = false →
      (loop_iteration config env st).1.last_saved.data ≠ 0 := by
  by_cases hr : (capture_screenshot env.capture st.current).1 < 0
  · rw [loop_iteration_failure config env st hr]
    exact hinv
  · obtain ⟨size, data, hm, h0, hd⟩ :=
      capture_success_mapped env.capture st.current hfd hmm hr
    have hcap : capture_screenshot env.capture st.current
        = (0, (capture_screenshot env.capture st.current).2.1,
            (capture_screenshot env.capture st.current).2.2) := by
      rw [← h0]
    rw [loop_iteration_success config env st _ _ hcap]
    by_cases hs : should_save config env.mem st.first_shot
        (capture_screenshot env.capture st.current).2.1 st.last_saved = true
    · rw [if_pos hs]
      intro _
      show (capture_screenshot env.capture st.current).2.1.data ≠ 0
      rw [hd]
      intro h
      exact hnull size (by rw [hm, h])
    · rw [if_neg hs]
      exact hinv

/-! ## Response parsing -/

theorem parse_reply_append (reply : List MetadataEntry) (e : MetadataEntry) :
    parse_reply (reply ++ [e]) = parse_entry (parse_reply reply) e := by
  unfold parse_reply
  rw [List.foldl_append]
  rfl

theorem field_value_append (reply : List MetadataEntry) (e : MetadataEntry) (key : String) :
    field_value (reply ++ [e]) key = if e.1 = key then some e.2 else field_value reply key := by
  unfold field_value
  rw [List.reverse_append]
  simp only [List.reverse_cons, List.reverse_nil, List.nil_append, List.singleton_append,
    List.find?_cons]
  by_cases h : e.1 = key
  · simp [h]
  · simp [h]

/-- The three locals after the parsing loop are the values of the three
fields, 0 standing for a missing field. -/
theorem parse_reply_fields (reply : List MetadataEntry) :
    (parse_reply reply).w = (field_value reply "width").getD 0 % U32_MOD
    ∧ (parse_reply reply).h = (field_value reply "height").getD 0 % U32_MOD
    ∧ (parse_reply reply).stride = (field_value reply "stride").getD 0 % U32_MOD := by
  induction reply using List.reverseRecOn with
  | nil => exact ⟨rfl, rfl, rfl⟩
  | append_singleton l e ih =>
    obtain ⟨iw, ih', is⟩ := ih
    rw [parse_reply_append, field_value_append, field_value_append, field_value_append]
    unfold parse_entry
    by_cases h1 : e.1 = "width"
    · have h2 : ¬ e.1 = "height" := by rw [h1]; decide
      have h3 : ¬ e.1 = "stride" := by rw [h1]; decide
      simp [h1, h2, h3, ih', is]
    · by_cases h2 : e.1 = "height"
      · have h3 : ¬ e.1 = "stride" := by rw [h2]; decide
        simp [h1, h2, h3, iw, is]
      · by_cases h3 : e.1 = "stride"
        · simp [h1, h2, h3, iw, ih']
        · simp [h1, h2, h3, iw, ih', is]

theorem field_value_typed (reply : List MetadataEntry) (key : String) (v : Nat)
    (htyped : ∀ e ∈ reply, e.2 < 2 ^ 32) (h : field_value reply key = some v) : v < 2 ^ 32 := by
  unfold field_value at h
  rw [Option.map_eq_some'] at h
  obtain ⟨e, he, hv⟩ := h
  have hmem : e ∈ reply := List.mem_reverse.1 (List.mem_of_find?_eq_some he)
  rw [← hv]
  exact htyped e hmem

/-- A stored local is 0 exactly when its field is missing or zero. -/
theorem stored_zero_iff (reply : List MetadataEntry) (key : String)
    (htyped : ∀ e ∈ reply, e.2 < 2 ^ 32) :
    (field_value reply key).getD 0 % U32_MOD = 0 ↔ missing_or_zero reply key := by
  unfold missing_or_zero
  cases hv : field_value reply key with
  | none => simp
  | some v =>
    have hlt := field_value_typed reply key v htyped hv
    have : v % U32_MOD = v := Nat.mod_eq_of_lt (by unfold U32_MOD; exact hlt)
    simp [this]

theorem parse_entry_skip (md : Metadata) (e : MetadataEntry) (h : is_required_key e = false) :
    parse_entry md e = md := by
  unfold is_required_key at h
  simp only [Bool.or_eq_false_iff, decide_eq_false_iff_not] at h
  unfold parse_entry
  simp [h.1.1, h.1.2, h.2]

theorem foldl_parse_filter (reply : List MetadataEntry) (md : Metadata) :
    (reply.filter is_required_key).foldl parse_entry md = reply.foldl parse_entry md := by
  induction reply generalizing md with
  | nil => rfl
  | cons e rest ih =>
    by_cases h : is_required_key e = true
    · rw [List.filter_cons_of_pos h]
      simp only [List.foldl_cons]
      exact ih _
    · have h' : is_required_key e = false := by simpa using h
      rw [List.filter_cons_of_neg h]
      simp only [List.foldl_cons]
      rw [parse_entry_skip md e h']
      exact ih _

/-- Entries with other keys are skipped: the parse depends on the entries of
the three keys only, in their order. -/
theorem parse_reply_filter (reply : List MetadataEntry) :
    parse_reply (reply.filter is_required_key) = parse_reply reply :=
  foldl_parse_filter reply _

/-- Value of `capture_screenshot` once the memfd is there and a reply `reply` came back. -/
theorem capture_screenshot_reply (env : CaptureEnv) (shot : screenshot_t) (r : Int)
    (reply : List MetadataEntry) (hfd : ¬ env.memfd < 0) (hcall : call_capture env = (r, reply))
    (hr : ¬ r < 0) :
    capture_screenshot env shot
      = if (parse_reply reply).w = 0 ∨ (parse_reply reply).h = 0 ∨ (parse_reply reply).stride = 0
        then (- EINVAL, shot, [])
        else
          match env.mmap ((parse_reply reply).stride * (parse_reply reply).h % U64_MOD) with
          | none => (-env.mmap_errno, shot, [])
          | some data =>
            (0, { data := data, width := (parse_reply reply).w, height := (parse_reply reply).h,
                  stride := (parse_reply reply).stride,
                  size := (parse_reply reply).stride * (parse_reply reply).h % U64_MOD },
              if shot.data ≠ 0 ∧ 0 < shot.size then [Event.munmap shot.data shot.size] else []) := by
  unfold capture_screenshot
  rw [hcall]
  simp only [hfd, hr, if_false]

/-- C10: once the memfd exists and a reply has come back, for every list of
metadata entries (values below `2^32`): if one of the fields `width`,
`height`, `stride` is missing from the list or zero, `capture_screenshot`
returns `-EINVAL` and leaves the frame untouched; otherwise it goes on to
`mmap` and returns 0 or `mmap`'s own `-errno`.  Hence, `mmap` not failing with
`EINVAL` itself, the result is `-EINVAL` if and only if a required field is
missing or zero.  Replacing the reply by any list with the same `width` /
`height` / `stride` entries in the same order, whatever other entries it holds
and wherever, leaves the outcome unchanged. -/
theorem invalid_metadata_iff (env : CaptureEnv) (shot : screenshot_t) (r : Int)
    (reply : List MetadataEntry) (hfd : ¬ env.memfd < 0)
    (hcall : call_capture env = (r, reply)) (hr : ¬ r < 0)
    (htyped : ∀ e ∈ reply, e.2 < 2 ^ 32) :
    ((missing_or_zero reply "width" ∨ missing_or_zero reply "height"
        ∨ missing_or_zero reply "stride") →
      capture_screenshot env shot = (- EINVAL, shot, []))
    ∧ (¬ (missing_or_zero reply "width" ∨ missing_or_zero reply "height"
        ∨ missing_or_zero reply "stride") →
      (capture_screenshot env shot).1 = 0
      ∨ capture_screenshot env shot = (-env.mmap_errno, shot, []))
    ∧ (env.mmap_errno ≠ EINVAL →
      ((capture_screenshot env shot).1 = - EINVAL
        ↔ missing_or_zero reply "width" ∨ missing_or_zero reply "height"
          ∨ missing_or_zero reply "stride"))
    ∧ (∀ reply2 : List MetadataEntry,
        reply2.filter is_required_key = reply.filter is_required_key →
        capture_screenshot { env with interactive_reply := reply2, active_screen_reply := reply2 }
          shot = capture_screenshot env shot) := by
  obtain ⟨fw, fh, fs⟩ := parse_reply_fields reply
  have hbad : ((parse_reply reply).w = 0 ∨ (parse_reply reply).h = 0
      ∨ (parse_reply reply).stride = 0)
      ↔ (missing_or_zero reply "width" ∨ missing_or_zero reply "height"
        ∨ missing_or_zero reply "stride") := by
    rw [fw, fh, fs, stored_zero_iff reply "width" htyped, stored_zero_iff reply "height" htyped,
      stored_zero_iff reply "stride" htyped]
  have hshape := capture_screenshot_reply env shot r reply hfd hcall hr
  refine ⟨fun h => ?_, fun h => ?_, fun herrno => ?_, ?_⟩
  · rw [hshape, if_pos (hbad.2 h)]
  · have hb : ¬ ((parse_reply reply).w = 0 ∨ (parse_reply reply).h = 0
        ∨ (parse_reply reply).stride = 0) := fun hb => h (hbad.1 hb)
    rw [hshape, if_neg hb]
    cases hm : env.mmap ((parse_reply reply).stride * (parse_reply reply).h % U64_MOD) with
    | none => exact Or.inr rfl
    | some d => exact Or.inl rfl
  · rw [hshape, ← hbad]
    by_cases hb : (parse_reply reply).w = 0 ∨ (parse_reply reply).h = 0
        ∨ (parse_reply reply).stride = 0
    · simp [hb]
    · rw [if_neg hb]
      cases hm : env.mmap ((parse_reply reply).stride * (parse_reply reply).h % U64_MOD) with
      | none => simp [hb, herrno]
      | some d => simp [hb, EINVAL]
  · intro reply2 hsame
    have hparse : parse_reply reply2 = parse_reply reply := by
      rw [← parse_reply_filter reply2, hsame, parse_reply_filter]
    have hcall2 : call_capture
        { env with interactive_reply := reply2, active_screen_reply := reply2 } = (r, reply2) := by
      unfold call_capture at hcall ⊢
      by_cases hi : env.interactive < 0
      · simp only [hi, if_true] at hcall ⊢
        rw [← (Prod.mk.inj hcall).1]
      · simp only [hi, if_false] at hcall ⊢
        rw [← (Prod.mk.inj hcall).1]
    have h2 := capture_screenshot_reply
      { env with interactive_reply := reply2, active_screen_reply := reply2 } shot r reply2 hfd
      hcall2 hr
    rw [h2, hshape, hparse]

/-- A reply whose width is zero, with two unknown entries: the capture fails
with `-EINVAL`, as it does on any reply with the same three required entries. -/
theorem invalid_metadata_iff_witness :
    call_capture (reply_env zero_width_reply) = (1, zero_width_reply)
    ∧ (∀ e ∈ zero_width_reply, e.2 < 2 ^ 32)
    ∧ ((missing_or_zero zero_width_reply "width" ∨ missing_or_zero zero_width_reply "height"
        ∨ missing_or_zero zero_width_reply "stride") →
      capture_screenshot (reply_env zero_width_reply) empty_shot = (- EINVAL, empty_shot, []))
    ∧ (¬ (missing_or_zero zero_width_reply "width" ∨ missing_or_zero zero_width_reply "height"
        ∨ missing_or_zero zero_width_reply "stride") →
      (capture_screenshot (reply_env zero_width_reply) empty_shot).1 = 0
      ∨ capture_screenshot (reply_env zero_width_reply) empty_shot
          = (-(reply_env zero_width_reply).mmap_errno, empty_shot, []))
    ∧ ((reply_env zero_width_reply).mmap_errno ≠ EINVAL →
      ((capture_screenshot (reply_env zero_width_reply) empty_shot).1 = - EINVAL
        ↔ missing_or_zero zero_width_reply "width" ∨ missing_or_zero zero_width_reply "height"
          ∨ missing_or_zero zero_width_reply "stride"))
    ∧ (∀ reply2 : List MetadataEntry,
        reply2.filter is_required_key = zero_width_reply.filter is_required_key →
        capture_screenshot
            { reply_env zero_width_reply with
              interactive_reply := reply2, active_screen_reply := reply2 } empty_shot
          = capture_screenshot (reply_env zero_width_reply) empty_shot) :=
  ⟨by decide, by decide,
    invalid_metadata_iff (reply_env zero_width_reply) empty_shot 1 zero_width_reply (by decide)
      (by decide) (by decide) (by decide)⟩

/-! ## The frame a capture produces -/

/-- The locals read from a reply are `uint32_t` values. -/
theorem parse_reply_lt (reply : List MetadataEntry) :
    (parse_reply reply).w < 2 ^ 32 ∧ (parse_reply reply).h < 2 ^ 32
    ∧ (parse_reply reply).stride < 2 ^ 32 := by
  obtain ⟨fw, fh, fs⟩ := parse_reply_fields reply
  rw [fw, fh, fs]
  have h : ∀ n : Nat, n % U32_MOD < 2 ^ 32 := fun n => Nat.mod_lt _ (by norm_num [U32_MOD])
  exact ⟨h _, h _, h _⟩

/-- Shape of a capture that returned 0, when `errno` values are positive: the
frame holds the three values parsed from the reply, all non-zero, the address
`mmap` returned and the size `stride * h` taken modulo `2^64`. -/
theorem capture_success_frame (env : CaptureEnv) (shot : screenshot_t)
    (hfd : 0 < env.memfd_errno) (hmm : 0 < env.mmap_errno)
    (hok : (capture_screenshot env shot).1 = 0) :
    ¬ ((parse_reply (call_capture env).2).w = 0 ∨ (parse_reply (call_capture env).2).h = 0
        ∨ (parse_reply (call_capture env).2).stride = 0)
    ∧ ∃ data, (capture_screenshot env shot).2.1
        = { data := data, width := (parse_reply (call_capture env).2).w,
            height := (parse_reply (call_capture env).2).h,
            stride := (parse_reply (call_capture env).2).stride,
            size := (parse_reply (call_capture env).2).stride
              * (parse_reply (call_capture env).2).h % U64_MOD } := by
  by_cases h1 : env.memfd < 0
  · simp [capture_screenshot, h1] at hok
    omega
  · by_cases h2 : (call_capture env).1 < 0
    · simp [capture_screenshot, h1, h2] at hok
      omega
    · by_cases h3 : (parse_reply (call_capture env).2).w = 0
          ∨ (parse_reply (call_capture env).2).h = 0
          ∨ (parse_reply (call_capture env).2).stride = 0
      · simp [capture_screenshot, h1, h2, h3, EINVAL] at hok
      · cases hm : env.mmap ((parse_reply (call_capture env).2).stride
            * (parse_reply (call_capture env).2).h % U64_MOD) with
        | none =>
          simp [capture_screenshot, h1, h2, h3, hm] at hok
          omega
        | some d =>
          exact ⟨h3, d, by simp [capture_screenshot, h1, h2, h3, hm]⟩

/-- C11 (amended): every frame produced by a successful `capture_screenshot`
(return value 0) has `size == stride * height`, the product taken in 64 bits
without wrap-around, and `width`, `height`, `stride` non-zero `uint32_t`
values, which are exactly the values of the reply.  The stride is not compared
with the width: `stride >= width * 4` holds of the frame only if it holds of
the reply. -/
theorem captured_frame_invariant (env : CaptureEnv) (shot : screenshot_t)
    (hfd : 0 < env.memfd_errno) (hmm : 0 < env.mmap_errno)
    (hok : (capture_screenshot env shot).1 = 0) :
    (capture_screenshot env shot).2.1.size
      = (capture_screenshot env shot).2.1.stride * (capture_screenshot env shot).2.1.height
    ∧ (capture_screenshot env shot).2.1.width ≠ 0
    ∧ (capture_screenshot env shot).2.1.height ≠ 0
    ∧ (capture_screenshot env shot).2.1.stride ≠ 0
    ∧ (capture_screenshot env shot).2.1.width < 2 ^ 32
    ∧ (capture_screenshot env shot).2.1.height < 2 ^ 32
    ∧ (capture_screenshot env shot).2.1.stride < 2 ^ 32
    ∧ (capture_screenshot env shot).2.1.width = (parse_reply (call_capture env).2).w
    ∧ (capture_screenshot env shot).2.1.height = (parse_reply (call_capture env).2).h
    ∧ (capture_screenshot env shot).2.1.stride = (parse_reply (call_capture env).2).stride := by
  obtain ⟨hnz, data, hframe⟩ := capture_success_frame env shot hfd hmm hok
  obtain ⟨lw, lh, ls⟩ := parse_reply_lt (call_capture env).2
  rw [hframe]
  simp only [not_or] at hnz
  refine ⟨?_, hnz.1, hnz.2.1, hnz.2.2, lw, lh, ls, rfl, rfl, rfl⟩
  show (parse_reply (call_capture env).2).stride * (parse_reply (call_capture env).2).h % U64_MOD
    = (parse_reply (call_capture env).2).stride * (parse_reply (call_capture env).2).h
  apply Nat.mod_eq_of_lt
  have : (parse_reply (call_capture env).2).stride * (parse_reply (call_capture env).2).h
      < 2 ^ 32 * 2 ^ 32 := Nat.mul_lt_mul'' ls lh
  unfold U64_MOD
  omega

/-- A capture of the 1 x 1 frame of `sample_reply` into an empty `screenshot_t`. -/
theorem captured_frame_invariant_witness :
    (capture_screenshot { reply_env sample_reply with memfd_errno := 24 } empty_shot).1 = 0
    ∧ (capture_screenshot { reply_env sample_reply with memfd_errno := 24 } empty_shot).2.1
        = captured_frame
    ∧ (capture_screenshot { reply_env sample_reply with memfd_errno := 24 } empty_shot).2.1.size
      = (capture_screenshot { reply_env sample_reply with memfd_errno := 24 } empty_shot).2.1.stride
        * (capture_screenshot { reply_env sample_reply with memfd_errno := 24 }
            empty_shot).2.1.height :=
  ⟨by decide, by decide,
    (captured_frame_invariant { reply_env sample_reply with memfd_errno := 24 } empty_shot
      (by decide) (by decide) (by decide)).1⟩

/-- C11 as stated fails: a reply with width 2, height 1 and stride 4 makes the
capture succeed with a frame whose stride is below `width * 4 = 8`. -/
theorem captured_frame_counterexample :
    capture_screenshot { reply_env short_stride_reply with memfd_errno := 24 } empty_shot
      = (0, { data := 8192, width := 2, height := 1, stride := 4, size := 4 }, [])
    ∧ ¬ ((capture_screenshot { reply_env short_stride_reply with memfd_errno := 24 }
          empty_shot).2.1.stride
        ≥ (capture_screenshot { reply_env short_stride_reply with memfd_errno := 24 }
          empty_shot).2.1.width * 4) := by
  constructor <;> decide

/-! ## Waiting for the compositor -/

/-- The wait loop ends whatever the readiness check and the `running` flag do:
from a counter `count <= 12`, `13 - count` runs of the loop test suffice, with
at most `13 - count` readiness checks and the counter never above 13. -/
theorem await_compositor_terminates (running ready : Nat → Bool) (fuel count : Nat)
    (hc : count ≤ 12) (hf : 13 ≤ fuel + count) :
    ∃ r, await_compositor running ready fuel count = some r
      ∧ polls r.2 ≤ 13 - count ∧ r.1 ≤ 13 := by
  induction fuel generalizing count with
  | zero => omega
  | succ fuel ih =>
    unfold await_compositor
    by_cases h1 : running count = false
    · exact ⟨(count, []), by simp [h1], by simp [polls], by simp; omega⟩
    · by_cases h2 : ready count = true
      · refine ⟨(count, [WaitEvent.check_ready]), by simp [h1, h2], ?_, by simp; omega⟩
        simp only [polls, List.count_singleton_self]
        omega
      · by_cases h3 : count + 1 > 12
        · refine ⟨(count + 1, [WaitEvent.check_ready, WaitEvent.sleep 5]),
            by simp [h1, h2, h3], ?_, by simp; omega⟩
          have : polls [WaitEvent.check_ready, WaitEvent.sleep 5] = 1 := by decide
          rw [this]
          omega
        · obtain ⟨r, hr, hp, hcnt⟩ := ih (count + 1) (by omega) (by omega)
          refine ⟨(r.1, [WaitEvent.check_ready, WaitEvent.sleep 5] ++ r.2),
            by simp [h1, h2, h3, hr], ?_, hcnt⟩
          have : polls ([WaitEvent.check_ready, WaitEvent.sleep 5] ++ r.2) = 1 + polls r.2 := by
            unfold polls
            rw [List.count_append]
            rfl
          rw [this]
          omega

/-- More fuel does not change a result. -/
theorem await_compositor_fuel (running ready : Nat → Bool) (fuel count : Nat)
    (r : Nat × List WaitEvent) (h : await_compositor running ready fuel count = some r) :
    await_compositor running ready (fuel + 1) count = some r := by
  induction fuel generalizing count r with
  | zero => simp [await_compositor] at h
  | succ fuel ih =>
    unfold await_compositor at h ⊢
    by_cases h1 : running count = false
    · simpa [h1] using h
    · by_cases h2 : ready count = true
      · simpa [h1, h2] using h
      · by_cases h3 : count + 1 > 12
        · simpa [h1, h2, h3] using h
        · simp only [h1, h2, h3, if_false] at h ⊢
          cases hrec : await_compositor running ready fuel (count + 1) with
          | none => rw [hrec] at h; simp at h
          | some r2 =>
            rw [hrec] at h
            rw [ih (count + 1) r2 hrec]
            exact h

/-- C12 on the run where the compositor never reports ready and `running` stays
set: the loop makes 13 readiness checks and 13 sleeps of 5 seconds, 65 seconds
in all, and leaves with the counter at 13; the exit test
`compositor_wait_count > 12` lets a 13th check and sleep happen. -/
theorem await_compositor_never_ready :
    await_compositor (fun _ => true) (fun _ => false) 13 0
      = some (13, (List.replicate 13 [WaitEvent.check_ready, WaitEvent.sleep 5]).flatten)
    ∧ polls (List.replicate 13 [WaitEvent.check_ready, WaitEvent.sleep 5]).flatten = 13
    ∧ seconds_slept (List.replicate 13 [WaitEvent.check_ready, WaitEvent.sleep 5]).flatten = 65 := by
  refine ⟨by decide, by decide, by decide⟩

/-! ## The size of the private copy -/

/-- Masking a 64-bit value with `~31` clears its five low bits. -/
theorem land_mask_eq (x : Nat) (hx : x < 2 ^ 64) : x &&& (2 ^ 64 - 32) = x / 32 * 32 := by
  have hmask : (2 : Nat) ^ 64 - 32 = (2 ^ 59 - 1) <<< 5 := by decide
  have hdiv : x / 32 * 32 = (x >>> 5) <<< 5 := by
    rw [Nat.shiftRight_eq_div_pow, Nat.shiftLeft_eq]
  rw [hmask, hdiv]
  apply Nat.eq_of_testBit_eq
  intro i
  rw [Nat.testBit_and, Nat.testBit_shiftLeft, Nat.testBit_shiftLeft, Nat.testBit_shiftRight,
    Nat.testBit_two_pow_sub_one]
  by_cases h5 : i ≥ 5
  · have e : 5 + (i - 5) = i := by omega
    rw [e]
    by_cases h64 : i < 64
    · have : i - 5 < 59 := by omega
      simp [h5, this]
    · have hlt : x < 2 ^ i :=
        lt_of_lt_of_le hx (Nat.pow_le_pow_right (by norm_num) (by omega))
      simp [Nat.testBit_lt_two_pow hlt]
  · simp [h5]

/-- Value of `aligned_size` when `size + 31` does not wrap. -/
theorem aligned_size_eq (size : Nat) (h : size ≤ 2 ^ 64 - 32) :
    aligned_size size = (size + 31) / 32 * 32 := by
  unfold aligned_size U64_MOD
  rw [Nat.mod_eq_of_lt (by omega)]
  exact land_mask_eq _ (by omega)

/-- The size of a frame, a product of two `uint32_t` values, is in the range
where `size + 31` does not wrap. -/
theorem frame_size_le (stride height : Nat) (hs : stride < 2 ^ 32) (hh : height < 2 ^ 32) :
    stride * height ≤ 2 ^ 64 - 32 := by
  have h1 : stride * height ≤ (2 ^ 32 - 1) * (2 ^ 32 - 1) :=
    Nat.mul_le_mul (by omega) (by omega)
  have h2 : (2 ^ 32 - 1) * (2 ^ 32 - 1) ≤ 2 ^ 64 - 32 := by norm_num
  exact le_trans h1 h2

/-- For every size up to `2^64 - 32`, where `size + 31` does not wrap, the
value `(size + 31) & ~31` is the smallest multiple of 32 that is at least
`size`. -/
theorem aligned_size_smallest (size : Nat) (h : size ≤ 2 ^ 64 - 32) :
    32 ∣ aligned_size size
    ∧ size ≤ aligned_size size
    ∧ (∀ m, 32 ∣ m → size ≤ m → aligned_size size ≤ m)
    ∧ aligned_size size < 2 ^ 64 := by
  rw [aligned_size_eq size h]
  refine ⟨Nat.dvd_mul_left 32 _, by omega, ?_, by omega⟩
  intro m hm hle
  obtain ⟨k, rfl⟩ := hm
  omega

/-- The size 4 of a 1 x 1 frame: 32 bytes are allocated. -/
theorem aligned_size_smallest_witness :
    4 ≤ 2 ^ 64 - 32
    ∧ aligned_size 4 = 32
    ∧ 32 ∣ aligned_size 4
    ∧ 4 ≤ aligned_size 4
    ∧ (∀ m, 32 ∣ m → 4 ≤ m → aligned_size 4 ≤ m)
    ∧ aligned_size 4 < 2 ^ 64 :=
  ⟨by decide, by decide, aligned_size_smallest 4 (by decide)⟩

/-- C13: for every frame size, that is the `size_t` value `stride * height` of
a frame with `uint32_t` stride and height, the allocation size
`(size + 31) & ~31` computed by `save_screenshot_async` is the smallest
multiple of 32 that is greater than or equal to `size`: it is a valid size for
a 32-byte-aligned allocation, and the private buffer is large enough for the
copy of all `size` bytes of the frame. -/
theorem frame_copy_size (f : screenshot_t) (hs : f.stride < 2 ^ 32) (hh : f.height < 2 ^ 32)
    (hsize : f.size = f.stride * f.height) :
    32 ∣ aligned_size f.size
    ∧ f.size ≤ aligned_size f.size
    ∧ (∀ m, 32 ∣ m → f.size ≤ m → aligned_size f.size ≤ m)
    ∧ aligned_size f.size < 2 ^ 64 := by
  have hle : f.size ≤ 2 ^ 64 - 32 := by
    rw [hsize]
    exact frame_size_le f.stride f.height hs hh
  rw [aligned_size_eq f.size hle]
  refine ⟨Nat.dvd_mul_left 32 _, by omega, ?_, by omega⟩
  intro m hm hsm
  obtain ⟨k, rfl⟩ := hm
  omega

/-- A 1366 x 767 frame with stride 5464: its 4190888 bytes are copied into an
allocation of 4190912 bytes. -/
theorem frame_copy_size_witness :
    (5464 : Nat) * 767 = 4190888
    ∧ aligned_size 4190888 = 4190912
    ∧ 32 ∣ aligned_size 4190888
    ∧ 4190888 ≤ aligned_size 4190888
    ∧ (∀ m, 32 ∣ m → 4190888 ≤ m → aligned_size 4190888 ≤ m)
    ∧ aligned_size 4190888 < 2 ^ 64 :=
  ⟨by decide, by decide,
    frame_copy_size { data := 8192, width := 1366, height := 767, stride := 5464, size := 4190888 }
      (by decide) (by decide) (by decide)⟩

/-- The frame of every successful capture has such a size: its copy is
allocated with at least `size` bytes, a multiple of 32. -/
theorem captured_frame_copy_fits (env : CaptureEnv) (shot : screenshot_t)
    (hfd : 0 < env.memfd_errno) (hmm : 0 < env.mmap_errno)
    (hok : (capture_screenshot env shot).1 = 0) :
    32 ∣ aligned_size (capture_screenshot env shot).2.1.size
    ∧ (capture_screenshot env shot).2.1.size
        ≤ aligned_size (capture_screenshot env shot).2.1.size := by
  obtain ⟨-, data, hframe⟩ := capture_success_frame env shot hfd hmm hok
  obtain ⟨-, lh, ls⟩ := parse_reply_lt (call_capture env).2
  have hle := frame_size_le _ _ ls lh
  have hsize : (capture_screenshot env shot).2.1.size ≤ 2 ^ 64 - 32 := by
    rw [hframe]
    exact le_trans (Nat.mod_le _ _) hle
  rw [aligned_size_eq _ hsize]
  exact ⟨Nat.dvd_mul_left 32 _, by omega⟩

end Fastshot
